import Mathlib

/-!
Verification of the module-release orchestration workflow (`src/go.ts`,
class `GoReleaser`) of the jsii-release repository.

Paths are modelled as lists of segments (`path.join a b = a ++ [b]`,
`path.basename = last segment`).  The filesystem is modelled as a record of
the three primitives the source uses (`fs.existsSync`, `fs.readdirSync`,
`fs.readFileSync`).  External commands executed through `utils.shell` are
modelled as a structured command type `Cmd` together with a `render`
function producing the exact command line the source builds; whether a
command succeeds is an oracle `shellOk` supplied by the environment.
`utils.ts` itself is not part of the sources, so the Process Runner
(`utils.shell`) and `utils.removeDirectory` are modelled from the
specification, as indicated by their doc comments.
-/

/-- A filesystem path, as a list of segments. `path.join` is list append. -/
abbrev FPath := List String

/-- Splits a character list at every occurrence of `sep`, keeping empty
pieces, with `acc` the (reversed) piece read so far. -/
def splitSegs (sep : Char) : List Char → List Char → List (List Char)
  | [], acc => [acc.reverse]
  | c :: rest, acc =>
    if c = sep then acc.reverse :: splitSegs sep rest []
    else splitSegs sep rest (c :: acc)

/-- JavaScript `String.prototype.split` with a one-character separator
(every separator in `go.ts` is a single character). -/
def splitChar (sep : Char) (s : String) : List String :=
  (splitSegs sep s.data []).map (fun cs => String.mk cs)

/-- JavaScript `String.prototype.startsWith`. -/
def strStartsWith (s pre : String) : Bool := pre.data.isPrefixOf s.data

/-- JavaScript `String.prototype.toLowerCase`. -/
def lowerStr (s : String) : String := String.mk (s.data.map Char.toLower)

/-- Renders a path the way the TypeScript code would interpolate it. -/
def renderPath (p : FPath) : String := String.intercalate ("/") p

/-- Last segment of a path, i.e. `path.basename` applied to a path. -/
def basename : FPath → String
  | [] => ""
  | [x] => x
  | _ :: x :: xs => basename (x :: xs)

/-- Applies `path.basename` to a slash-delimited string such as `owner/repo`. -/
def strBasename (s : String) : String := basename (splitChar '/' s)

/-- The filesystem primitives used by `go.ts`: `fs.existsSync`,
`fs.readdirSync` and `fs.readFileSync` (file contents as strings). -/
structure FileSystem where
  exists_ : FPath → Bool
  readdir : FPath → List String
  readFile : FPath → String

/-- The external commands `go.ts` builds and hands to `utils.shell`,
structured by the call site; `Cmd.render` gives the exact command line. -/
inductive Cmd where
  | clone (token repository : String) (targetDir : FPath)
  | checkout (branch : String)
  | checkoutNew (branch : String)
  | copyStaging (stagingDir repoDir : FPath)
  | addAll
  | diffIndexQuiet
  | configUserName (name : String)
  | configUserEmail (email : String)
  | commit (message : String)
  | tagAnnotated (tagName : String)
  | push (target : String)
deriving DecidableEq

/-- The exact command line each `Cmd` stands for, as built in `go.ts`. -/
def Cmd.render : Cmd → String
  | .clone tok repo dir =>
      "git clone https://" ++ tok ++ "@github.com/" ++ repo ++ ".git " ++ renderPath dir
  | .checkout b => "git checkout " ++ b
  | .checkoutNew b => "git checkout -b " ++ b
  | .copyStaging src dst => "cp -r " ++ renderPath src ++ "/* " ++ renderPath dst
  | .addAll => "git add ."
  | .diffIndexQuiet => "git diff-index --exit-code HEAD --"
  | .configUserName n => "git config user.name " ++ n
  | .configUserEmail e => "git config user.email " ++ e
  | .commit m => "git commit -m \"" ++ m ++ "\""
  | .tagAnnotated t => "git tag -a " ++ t ++ " -m " ++ t
  | .push target => "git push origin " ++ target

/-- Whether a command is a `git push`. -/
def Cmd.isPush : Cmd → Bool
  | .push _ => true
  | _ => false

/-- Whether a command is a `git commit`. -/
def Cmd.isCommit : Cmd → Bool
  | .commit _ => true
  | _ => false

/-- Whether a command is a `git tag` creation. -/
def Cmd.isTagCmd : Cmd → Bool
  | .tagAnnotated _ => true
  | _ => false

/-- The fields of a `GoReleaser` instance (`go.ts` lines 19-25). -/
structure Config where
  version : Option String
  dir : FPath
  dryRun : Bool
  gitBranch : String
  gitUsername : String
  gitUseremail : String

/-- The ambient process environment consumed inside `release`, plus the
oracles of the model: `tmpDir` models the result of
`fs.mkdtempSync(os.tmpdir())`, and `shellOk` tells which external commands
exit successfully. -/
structure Env where
  commitMessage : Option String
  githubToken : Option String
  tmpDir : FPath
  shellOk : Cmd → Bool

/-- Inputs read by the `GoReleaser` constructor (`go.ts` lines 29-52):
environment variables, the output of the two `git config` queries, and
whether the `git` executable is on the PATH. -/
structure ConstructorInput where
  versionEnv : Option String
  gitBranchEnv : Option String
  dryRunEnv : Option String
  gitUserNameEnv : Option String
  gitUserEmailEnv : Option String
  configUserName : String
  configUserEmail : String
  gitAvailable : Bool

/-- The `GoReleaser` constructor (`go.ts` lines 29-52): checks that git is
available, resolves the configuration from the environment, and performs
the committer-identity precondition checks. -/
def goReleaserInit (dirArg : Option FPath) (i : ConstructorInput) : Except String Config :=
  if i.gitAvailable = false then
    .error ("git must be available to create this release")
  else
    let gitUsername := i.gitUserNameEnv.getD i.configUserName
    let gitUseremail := i.gitUserEmailEnv.getD i.configUserEmail
    if gitUseremail = "" then
      .error ("Unable to detect username. either configure a global git user.name or pass GIT_USER_NAME env variable")
    else if gitUsername = "" then
      .error ("Unable to detect user email. either configure a global git user.email or pass GIT_USER_EMAIL env variable")
    else
      .ok {
        version := i.versionEnv
        dir := dirArg.getD (["dist", "go"])
        dryRun := lowerStr (i.dryRunEnv.getD ("false")) == "true"
        gitBranch := i.gitBranchEnv.getD ("main")
        gitUsername := gitUsername
        gitUseremail := gitUseremail }

/-- The result type of `release` (`GoRelease` in `go.ts`): `tags := none`
models returning `{}` with no `tags` field. -/
structure GoRelease where
  tags : Option (List String)
deriving DecidableEq

deriving instance DecidableEq for Except

/-- The observable state threaded through a run: the filesystem, the list
of external commands executed so far (in order), and the console output. -/
structure RunState where
  fs : FileSystem
  trace : List Cmd
  console : List String

/-- A fresh run state over a given filesystem. -/
def initState (fs : FileSystem) : RunState :=
  { fs := fs, trace := [], console := [] }

/-- The effect monad of the model: state passing plus thrown errors
(JavaScript exceptions), keeping the state produced so far on failure. -/
def RunM (α : Type) := RunState → Except String α × RunState

instance : Monad RunM where
  pure a := fun s => (.ok a, s)
  bind x f := fun s =>
    match x s with
    | (.ok a, s1) => f a s1
    | (.error e, s1) => (.error e, s1)

/-- Runs `x`; on a thrown error runs `handler` instead (a `try`/`catch`
block that ignores the caught error, as all catches in `go.ts` do). -/
def tryCatchR {α : Type} (x handler : RunM α) : RunM α := fun s =>
  match x s with
  | (.ok a, s1) => (.ok a, s1)
  | (.error _, s1) => handler s1

/-- Throws an error (a `throw new Error(msg)`). -/
def throwR {α : Type} (msg : String) : RunM α := fun s => (.error msg, s)

/-- Lifts a pure fallible computation into the run monad. -/
def liftE {α : Type} (x : Except String α) : RunM α := fun s => (x, s)

/-- Reads the current filesystem. -/
def readFsM : RunM FileSystem := fun s => (.ok s.fs, s)

/-- Applies a pure transformation to the filesystem. -/
def modifyFs (f : FileSystem → FileSystem) : RunM Unit := fun s =>
  (.ok (), { s with fs := f s.fs })

/-- Appends a line to the console output (`console.log`). -/
def consoleLog (line : String) : RunM Unit := fun s =>
  (.ok (), { s with console := s.console ++ [line] })

/-- Modelled from the spec: the Process Runner (`utils.shell`; `utils.ts`
is not among the sources) executes an external command and raises on
non-zero exit.  Success is decided by the `shellOk` oracle; the raised
error carries the command line.  The executed command is recorded in the
trace whether or not it succeeds. -/
def shell (env : Env) (c : Cmd) : RunM Unit := fun s =>
  let s1 := { s with trace := s.trace ++ [c] }
  if env.shellOk c then (.ok (), s1) else (.error (Cmd.render c), s1)

/-- Module discovery (`go.ts` lines 118-136, `collectModules`): the staging
directory itself if it directly contains `go.mod`, then every directory
entry whose own `go.mod` exists. -/
def collectModules (fs : FileSystem) (dir : FPath) : List FPath :=
  (if fs.exists_ (dir ++ ["go.mod"]) then [dir] else []) ++
    (fs.readdir dir).filterMap (fun p =>
      if fs.exists_ (dir ++ [p, "go.mod"]) then some (dir ++ [p]) else none)

/-- The inner `findModuleDeclaration` of `extractRepo` (`go.ts` lines
158-165): first line starting with `module `, second space-separated
token.  Because a matching line starts with `module `, splitting it on a
space always has an index 1, so the default is never used on a match. -/
def findModuleDeclaration (modFilePath : FPath) (content : String) : Except String String :=
  match (splitChar '\n' content).find? (fun line => strStartsWith line ("module ")) with
  | some line => .ok (((splitChar ' ' line).get? 1).getD (""))
  | none => .error ("No module declaration in file: " ++ renderPath modFilePath)

/-- The loop of `extractRepo` (`go.ts` lines 167-173): for each module read
its `go.mod`, take path segments 1 and 2 of the slash-split declared
module import path (JavaScript yields `undefined` for a missing index, which
string interpolation renders as the text `undefined`), and insert
`owner/repo` into the set, preserving insertion order. -/
def collectRepos (fs : FileSystem) : List FPath → List String → Except String (List String)
  | [], repos => .ok repos
  | m :: rest, repos =>
    match findModuleDeclaration (m ++ ["go.mod"]) (fs.readFile (m ++ ["go.mod"])) with
    | .error e => .error e
    | .ok fullModuleName =>
      let parts := splitChar '/' fullModuleName
      let owner := (parts.get? 1).getD ("undefined")
      let repo := (parts.get? 2).getD ("undefined")
      let r := owner ++ "/" ++ repo
      collectRepos fs rest (if repos.contains r then repos else repos ++ [r])

/-- Repository resolution (`go.ts` lines 155-182, `extractRepo`). -/
def extractRepo (fs : FileSystem) (modules : List FPath) : Except String String :=
  match collectRepos fs modules [] with
  | .error e => .error e
  | .ok repos =>
    if repos.length = 0 then .error ("Unable to detect repository from module files.")
    else if repos.length > 1 then .error ("Multiple repositories found in module files")
    else .ok (repos.headD (""))

/-- Version resolution (`go.ts` lines 212-224, `extractVersion`): the
global `VERSION` override wins, else the `version` file's contents are
used verbatim, else an error naming the module directory. -/
def extractVersion (version : Option String) (fs : FileSystem) (moduleDirectory : FPath) : Except String String :=
  match version with
  | some v => .ok v
  | none =>
    if fs.exists_ (moduleDirectory ++ ["version"]) then
      .ok (fs.readFile (moduleDirectory ++ ["version"]))
    else
      .error ("Unable to determine version of module " ++ renderPath moduleDirectory
        ++ ". Either include a \x27version\x27 file, or specify a global version using the VERSION environment variable.")

/-- The loop of `createReleaseMessage` (`go.ts` lines 189-193). -/
def releaseMessageLoop (version : Option String) (fs : FileSystem) :
    List FPath → String → Except String String
  | [], message => .ok message
  | m :: rest, message =>
    match extractVersion version fs m with
    | .error e => .error e
    | .ok v => releaseMessageLoop version fs rest (message ++ " " ++ basename m ++ "@" ++ v)

/-- Commit-message generation (`go.ts` lines 184-195). -/
def createReleaseMessage (version : Option String) (fs : FileSystem) (modules : List FPath) : Except String String :=
  match version with
  | some v => .ok ("chore(release): " ++ v)
  | none => releaseMessageLoop version fs modules ("chore(release):")

/-- Whether `removeDirectory dir includeRoot exclude` deletes the path `p`:
`p` lies under `dir` (the directory itself only when `includeRoot`), and
its first segment below `dir` is not excluded. -/
def removesPath (dir : FPath) (includeRoot : Bool) (exclude : List String) (p : FPath) : Bool :=
  if dir.isPrefixOf p then
    match p.drop dir.length with
    | [] => includeRoot
    | e :: _ => !(exclude.contains e)
  else false

/-- Modelled from the spec: `utils.removeDirectory(dir, options)`
(`utils.ts` is not among the sources) recursively deletes the contents of
`dir`; `includeRoot` says whether `dir` itself is removed as well, and the
subtrees of top-level entries listed in `exclude` are kept (the release
synchronizer uses this to keep the version-control metadata, spec section
4.4 step 3).  File contents of deleted paths are irrelevant once
`exists_` is false, and directory listings are only consulted before any
mutation in this pipeline, so `readFile` and `readdir` are untouched. -/
def removeDirectory (fs : FileSystem) (dir : FPath) (includeRoot : Bool) (exclude : List String) : FileSystem :=
  { fs with exists_ := fun p =>
      if removesPath dir includeRoot exclude p then false else fs.exists_ p }

/-- The source staging path of `p` under the copy `cp -r src/* dst`: the
suffix of `p` below `dst` re-rooted at `src`, when `p` lies strictly
below `dst`. -/
def copiedFrom (src dst : FPath) (p : FPath) : Option FPath :=
  if dst.isPrefixOf p && !(p == dst) then some (src ++ p.drop dst.length) else none

/-- Modelled from the spec: the effect of the shell command
`cp -r <staging>/* <repoDir>` (spec section 4.4 step 3, copy the staging
directory's contents into the workspace).  The copy overlays: a path below
`dst` whose counterpart below `src` exists receives that counterpart's
content, and every other path keeps its previous state. -/
def copyInto (fs : FileSystem) (src dst : FPath) : FileSystem :=
  { fs with
    exists_ := fun p =>
      match copiedFrom src dst p with
      | some q => fs.exists_ q || fs.exists_ p
      | none => fs.exists_ p
    readFile := fun p =>
      match copiedFrom src dst p with
      | some q => if fs.exists_ q then fs.readFile q else fs.readFile p
      | none => fs.readFile p }

/-- The submodule-removal loop of `syncModules` (`go.ts` lines 145-150):
for each entry of the workspace, if it holds a `go.mod`, remove it. -/
def removeSubmodules (repoDir : FPath) (entries : List String) (fs : FileSystem) : FileSystem :=
  entries.foldl (fun acc p =>
    if acc.exists_ (repoDir ++ [p, "go.mod"]) then
      removeDirectory acc (repoDir ++ [p]) true []
    else acc) fs

/-- Content synchronization (`go.ts` lines 138-153, `syncModules`): if the
cloned workspace has a top-level `go.mod`, clear the whole workspace except
`.git`; otherwise remove only the workspace entries that hold a `go.mod`.
Then copy the staging directory's contents in with `cp -r`. -/
def syncModules (cfg : Config) (env : Env) (repoDir : FPath) : RunM Unit := do
  let fs ← readFsM
  if fs.exists_ (repoDir ++ ["go.mod"]) then
    modifyFs (fun f => removeDirectory f repoDir false [".git"])
  else
    modifyFs (fun f => removeSubmodules repoDir (f.readdir repoDir) f)
  shell env (.copyStaging cfg.dir repoDir)
  modifyFs (fun f => copyInto f cfg.dir repoDir)

/-- The clone step (`go.ts` lines 107-116, `cloneGitHub`): requires the
`GITHUB_TOKEN` environment variable, then shells out to `git clone`. -/
def cloneGitHub (env : Env) (repository : String) (targetDir : FPath) : RunM Unit :=
  match env.githubToken with
  | none => throwR ("GITHUB_TOKEN env variable is required")
  | some tok => shell env (.clone tok repository targetDir)

/-- The checkout step (`go.ts` lines 71-75): try to check out the
configured branch; when that throws, create the branch instead. -/
def checkoutStep (cfg : Config) (env : Env) : RunM Unit :=
  tryCatchR (shell env (.checkout cfg.gitBranch))
    (shell env (.checkoutNew cfg.gitBranch))

/-- The staging block (`go.ts` lines 79-86): `git add .` then
`git diff-index --exit-code HEAD --`; when both succeed there are no
changes (result `true`), and any thrown error means changes exist
(result `false`). -/
def stageAndCheck (env : Env) : RunM Bool :=
  tryCatchR (do shell env .addAll; shell env .diffIndexQuiet; pure true) (pure false)

/-- Tag creation for one module (`go.ts` lines 197-210, `createTag`): the
tag is unprefixed exactly when the module directory's basename equals the
basename of the cloned workspace directory. -/
def createTag (cfg : Config) (env : Env) (moduleDirectory repoDir : FPath) : RunM String := do
  let moduleName := basename moduleDirectory
  let fs ← readFsM
  let moduleVersion ← liftE (extractVersion cfg.version fs moduleDirectory)
  let tagName :=
    if moduleName = basename repoDir then "v" ++ moduleVersion
    else moduleName ++ "/v" ++ moduleVersion
  shell env (.tagAnnotated tagName)
  pure tagName

/-- The tag-creation pass (`go.ts` line 95): `modules.map(m => createTag m)`,
sequential and in discovery order. -/
def createTags (cfg : Config) (env : Env) (repoDir : FPath) : List FPath → RunM (List String)
  | [] => pure []
  | m :: rest => do
    let t ← createTag cfg env m repoDir
    let ts ← createTags cfg env repoDir rest
    pure (t :: ts)

/-- The tag-push loop (`go.ts` line 102): `tags.forEach(t => shell(push t))`. -/
def pushTags (env : Env) : List String → RunM Unit
  | [] => pure ()
  | t :: rest => do
    shell env (.push t)
    pushTags env rest

/-- The would-be-push report of dry-run mode (`go.ts` line 99). -/
def reportTags : List String → RunM Unit
  | [] => pure ()
  | t :: rest => do
    consoleLog ("Will push tag: " ++ t)
    reportTags rest

/-- The push phase (`go.ts` lines 97-103): in dry-run mode report the
would-be pushes; otherwise push the branch, then every tag in order. -/
def doPush (cfg : Config) (env : Env) (tags : List String) : RunM Unit :=
  if cfg.dryRun then do
    consoleLog ("Will push to branch: " ++ cfg.gitBranch)
    reportTags tags
  else do
    shell env (.push cfg.gitBranch)
    pushTags env tags

/-- The module-listing log (`go.ts` line 63). -/
def logModules : List FPath → RunM Unit
  | [] => pure ()
  | m :: rest => do
    consoleLog (" - " ++ renderPath m)
    logModules rest

/-- The release pipeline (`go.ts` lines 59-105, `GoReleaser.release`):
discover modules, resolve the repository, clone it into a temporary
directory, check out the branch, synchronize content, stop successfully
when nothing changed, otherwise configure the identity, commit, create all
tags, and push (or report, in dry-run mode). -/
def release (cfg : Config) (env : Env) : RunM GoRelease := do
  let fs0 ← readFsM
  let modules := collectModules fs0 cfg.dir
  consoleLog ("Detected modules:")
  logModules modules
  let repo ← liftE (extractRepo fs0 modules)
  let repoDir := env.tmpDir ++ [strBasename repo]
  cloneGitHub env repo repoDir
  checkoutStep cfg env
  syncModules cfg env repoDir
  let noChanges ← stageAndCheck env
  if noChanges then do
    consoleLog ("No changes. Skipping release")
    pure { tags := none }
  else do
    shell env (.configUserName cfg.gitUsername)
    shell env (.configUserEmail cfg.gitUseremail)
    let commitMessage ←
      match env.commitMessage with
      | some m => pure m
      | none => do
        let fs ← readFsM
        liftE (createReleaseMessage cfg.version fs modules)
    shell env (.commit commitMessage)
    let tags ← createTags cfg env repoDir modules
    doPush cfg env tags
    pure { tags := some tags }

/-- Concrete staging layout used to instantiate the theorems: the staging
directory `dist/go` is itself a go module declaring repository
`acme/widgets`, with a `version` file reading `1.2.3`; `tmp` models the
temporary directory and `tmp/widgets` the (empty) clone target. -/
def fsSample : FileSystem :=
  { exists_ := fun p =>
      p == ["dist"] || p == ["dist", "go"] || p == ["dist", "go", "go.mod"] ||
      p == ["dist", "go", "version"] || p == ["tmp"] || p == ["tmp", "widgets"]
    readdir := fun p => if p == ["dist", "go"] then ["go.mod", "version"] else []
    readFile := fun p =>
      if p == ["dist", "go", "go.mod"] then "module github.com/acme/widgets" else
      if p == ["dist", "go", "version"] then "1.2.3" else "" }

/-- Concrete staging layout whose two modules declare different
repositories (`a/r1` at the root, `a/r2` in the submodule `m2`). -/
def fsMulti : FileSystem :=
  { exists_ := fun p =>
      p == ["dist", "go"] || p == ["dist", "go", "go.mod"] ||
      p == ["dist", "go", "m2"] || p == ["dist", "go", "m2", "go.mod"]
    readdir := fun p => if p == ["dist", "go"] then ["go.mod", "m2"] else []
    readFile := fun p =>
      if p == ["dist", "go", "go.mod"] then "module github.com/a/r1" else
      if p == ["dist", "go", "m2", "go.mod"] then "module github.com/a/r2" else "" }

/-- Concrete configuration with the constructor defaults and no global
version override. -/
def cfgSample : Config :=
  { version := none, dir := ["dist", "go"], dryRun := false, gitBranch := "main",
    gitUsername := "u", gitUseremail := "e" }

/-- The configuration of a dry run with a global version override. -/
def cfgDry : Config :=
  { version := some "2.0.0", dir := ["dist", "go"], dryRun := true, gitBranch := "main",
    gitUsername := "u", gitUseremail := "e" }

/-- Concrete environment in which every external command succeeds except
`git diff-index` (i.e. the synchronized tree differs from the clone). -/
def envSample : Env :=
  { commitMessage := none, githubToken := some "tok", tmpDir := ["tmp"],
    shellOk := fun c => !(c == Cmd.diffIndexQuiet) }

/-- Concrete environment in which every external command succeeds,
including `git diff-index` (i.e. the synchronized tree is unchanged). -/
def envAllOk : Env :=
  { commitMessage := none, githubToken := some "tok", tmpDir := ["tmp"],
    shellOk := fun _ => true }

/-- Concrete environment in which `git checkout main` fails (the branch
does not exist) and everything else succeeds. -/
def envNoBranch : Env :=
  { commitMessage := none, githubToken := some "tok", tmpDir := ["tmp"],
    shellOk := fun c => !(c == Cmd.checkout "main") }

/-- Concrete layout for content synchronization: the staging directory
`dist/go` is a top-level module (it has a root `go.mod`), while the cloned
workspace `tmp/w` has no `go.mod` and holds the tracked files `keep.txt`
and `README`, neither of which exists in the staging directory. -/
def fsA : FileSystem :=
  { exists_ := fun p =>
      p == ["dist", "go"] || p == ["dist", "go", "go.mod"] ||
      p == ["tmp", "w"] || p == ["tmp", "w", "keep.txt"] || p == ["tmp", "w", "README"]
    readdir := fun p => if p == ["tmp", "w"] then ["keep.txt", "README"] else []
    readFile := fun p =>
      if p == ["dist", "go", "go.mod"] then "module github.com/a/w" else "" }

/-- Concrete layout for content synchronization: neither the staging
directory `dist/go` nor the cloned workspace `tmp/w` has a root `go.mod`,
the workspace holds no submodule, and both sides hold a `README` with
different contents. -/
def fsB : FileSystem :=
  { exists_ := fun p =>
      p == ["dist", "go"] || p == ["dist", "go", "README"] ||
      p == ["tmp", "w"] || p == ["tmp", "w", "README"]
    readdir := fun p => if p == ["tmp", "w"] then ["README"] else []
    readFile := fun p =>
      if p == ["dist", "go", "README"] then "new" else
      if p == ["tmp", "w", "README"] then "old" else "" }

/-- The normal-mode counterpart of `cfgDry`: identical except that
dry-run is off. -/
def cfgNormal : Config :=
  { version := some "2.0.0", dir := ["dist", "go"], dryRun := false, gitBranch := "main",
    gitUsername := "u", gitUseremail := "e" }

/-- Concrete environment in which pushing the tag `t2` fails and every
other command succeeds. -/
def envPushFail : Env :=
  { commitMessage := none, githubToken := some "tok", tmpDir := ["tmp"],
    shellOk := fun c => !(c == Cmd.push "t2") }

/-! Run lemmas: one-step symbolic execution of the model, used to drive the
release pipeline through its stages in the proofs below. -/

theorem shell_run_ok {env : Env} {c : Cmd} (h : env.shellOk c = true) (s : RunState) :
    shell env c s = (.ok (), { s with trace := s.trace ++ [c] }) := by
  unfold shell
  simp [h]

theorem shell_run_err {env : Env} {c : Cmd} (h : env.shellOk c = false) (s : RunState) :
    shell env c s = (.error (Cmd.render c), { s with trace := s.trace ++ [c] }) := by
  unfold shell
  simp [h]

theorem bind_ok {α β : Type} {x : RunM α} {f : α → RunM β} {s s1 : RunState} {a : α}
    (h : x s = (.ok a, s1)) : (x >>= f) s = f a s1 := by
  show (match x s with
    | (.ok a, s1) => f a s1
    | (.error e, s1) => (Except.error e, s1)) = f a s1
  rw [h]

theorem bind_err {α β : Type} {x : RunM α} {f : α → RunM β} {s s1 : RunState} {e : String}
    (h : x s = (.error e, s1)) : (x >>= f) s = (.error e, s1) := by
  show (match x s with
    | (.ok a, s1) => f a s1
    | (.error e, s1) => (Except.error e, s1)) = (Except.error e, s1)
  rw [h]

theorem bind_readFsM {β : Type} (f : FileSystem → RunM β) (s : RunState) :
    (readFsM >>= f) s = f s.fs s := rfl

theorem bind_consoleLog {β : Type} (l : String) (f : Unit → RunM β) (s : RunState) :
    (consoleLog l >>= f) s = f () { s with console := s.console ++ [l] } := rfl

theorem bind_modifyFs {β : Type} (g : FileSystem → FileSystem) (f : Unit → RunM β) (s : RunState) :
    (modifyFs g >>= f) s = f () { s with fs := g s.fs } := rfl

theorem bind_logModules {β : Type} (ms : List FPath) (f : Unit → RunM β) (s : RunState) :
    (logModules ms >>= f) s
      = f () { s with console := s.console ++ ms.map (fun m => " - " ++ renderPath m) } := by
  induction ms generalizing s with
  | nil =>
    show f () s = _
    simp
  | cons m rest ih =>
    show (consoleLog (" - " ++ renderPath m) >>= fun _ => (logModules rest >>= f)) s = _
    rw [bind_consoleLog, ih]
    simp

theorem bind_liftE_ok {α β : Type} {x : Except String α} {a : α} (h : x = .ok a)
    (f : α → RunM β) (s : RunState) : (liftE x >>= f) s = f a s := by
  show (match (liftE x) s with
    | (.ok a, s1) => f a s1
    | (.error e, s1) => (Except.error e, s1)) = f a s
  rw [liftE, h]

theorem bind_liftE_err {α β : Type} {x : Except String α} {e : String} (h : x = .error e)
    (f : α → RunM β) (s : RunState) : (liftE x >>= f) s = (.error e, s) := by
  show (match (liftE x) s with
    | (.ok a, s1) => f a s1
    | (.error e, s1) => (Except.error e, s1)) = (Except.error e, s)
  rw [liftE, h]

theorem bind_shell_ok {β : Type} {env : Env} {c : Cmd} (h : env.shellOk c = true)
    (f : Unit → RunM β) (s : RunState) :
    (shell env c >>= f) s = f () { s with trace := s.trace ++ [c] } :=
  bind_ok (shell_run_ok h s)

theorem bind_shell_err {β : Type} {env : Env} {c : Cmd} (h : env.shellOk c = false)
    (f : Unit → RunM β) (s : RunState) :
    (shell env c >>= f) s = (.error (Cmd.render c), { s with trace := s.trace ++ [c] }) :=
  bind_err (shell_run_err h s)

theorem pure_run {α : Type} (a : α) (s : RunState) : (pure a : RunM α) s = (.ok a, s) := rfl

theorem tryCatchR_no_err {α : Type} {x : RunM α} {s s1 : RunState} {a : α} (handler : RunM α)
    (h : x s = (.ok a, s1)) : tryCatchR x handler s = (.ok a, s1) := by
  unfold tryCatchR
  rw [h]

theorem tryCatchR_caught {α : Type} {x : RunM α} {s s1 : RunState} {e : String} (handler : RunM α)
    (h : x s = (.error e, s1)) : tryCatchR x handler s = handler s1 := by
  unfold tryCatchR
  rw [h]

theorem cloneGitHub_run {env : Env} {tok : String} (repository : String) (targetDir : FPath)
    (htok : env.githubToken = some tok)
    (hok : env.shellOk (.clone tok repository targetDir) = true) (s : RunState) :
    cloneGitHub env repository targetDir s
      = (.ok (), { s with trace := s.trace ++ [.clone tok repository targetDir] }) := by
  unfold cloneGitHub
  rw [htok]
  exact shell_run_ok hok s

theorem cloneGitHub_run_notoken {env : Env} (repository : String) (targetDir : FPath)
    (htok : env.githubToken = none) (s : RunState) :
    cloneGitHub env repository targetDir s
      = (.error "GITHUB_TOKEN env variable is required", s) := by
  unfold cloneGitHub
  rw [htok]
  rfl

theorem checkoutStep_run_ok {cfg : Config} {env : Env}
    (h : env.shellOk (.checkout cfg.gitBranch) = true) (s : RunState) :
    checkoutStep cfg env s = (.ok (), { s with trace := s.trace ++ [.checkout cfg.gitBranch] }) := by
  unfold checkoutStep
  exact tryCatchR_no_err _ (shell_run_ok h s)

theorem checkoutStep_run_fallback {cfg : Config} {env : Env}
    (h1 : env.shellOk (.checkout cfg.gitBranch) = false)
    (h2 : env.shellOk (.checkoutNew cfg.gitBranch) = true) (s : RunState) :
    checkoutStep cfg env s
      = (.ok (), { s with trace := s.trace ++ [.checkout cfg.gitBranch, .checkoutNew cfg.gitBranch] }) := by
  unfold checkoutStep
  rw [tryCatchR_caught _ (shell_run_err h1 s), shell_run_ok h2]
  simp

theorem checkoutStep_run_bothfail {cfg : Config} {env : Env}
    (h1 : env.shellOk (.checkout cfg.gitBranch) = false)
    (h2 : env.shellOk (.checkoutNew cfg.gitBranch) = false) (s : RunState) :
    checkoutStep cfg env s
      = (.error (Cmd.render (.checkoutNew cfg.gitBranch)),
         { s with trace := s.trace ++ [.checkout cfg.gitBranch, .checkoutNew cfg.gitBranch] }) := by
  unfold checkoutStep
  rw [tryCatchR_caught _ (shell_run_err h1 s), shell_run_err h2]
  simp

theorem stageAndCheck_run_nochange {env : Env}
    (hadd : env.shellOk .addAll = true) (hdiff : env.shellOk .diffIndexQuiet = true) (s : RunState) :
    stageAndCheck env s = (.ok true, { s with trace := s.trace ++ [.addAll, .diffIndexQuiet] }) := by
  unfold stageAndCheck
  refine tryCatchR_no_err _ ?_
  rw [bind_shell_ok hadd, bind_shell_ok hdiff, pure_run]
  simp

theorem stageAndCheck_run_diff {env : Env}
    (hadd : env.shellOk .addAll = true) (hdiff : env.shellOk .diffIndexQuiet = false) (s : RunState) :
    stageAndCheck env s = (.ok false, { s with trace := s.trace ++ [.addAll, .diffIndexQuiet] }) := by
  unfold stageAndCheck
  have hin : (do shell env .addAll; shell env .diffIndexQuiet; pure true : RunM Bool) s
      = (.error (Cmd.render .diffIndexQuiet), { s with trace := s.trace ++ [.addAll, .diffIndexQuiet] }) := by
    show (shell env .addAll >>= fun _ => shell env .diffIndexQuiet >>= fun _ => pure true) s = _
    rw [bind_shell_ok hadd, bind_shell_err hdiff]
    simp
  rw [tryCatchR_caught _ hin, pure_run]

theorem stageAndCheck_run_addfail {env : Env}
    (hadd : env.shellOk .addAll = false) (s : RunState) :
    stageAndCheck env s = (.ok false, { s with trace := s.trace ++ [.addAll] }) := by
  unfold stageAndCheck
  have hin : (do shell env .addAll; shell env .diffIndexQuiet; pure true : RunM Bool) s
      = (.error (Cmd.render .addAll), { s with trace := s.trace ++ [.addAll] }) := by
    show (shell env .addAll >>= fun _ => shell env .diffIndexQuiet >>= fun _ => pure true) s = _
    exact bind_shell_err hadd _ s
  rw [tryCatchR_caught _ hin, pure_run]

theorem syncModules_run {cfg : Config} {env : Env} (repoDir : FPath)
    (hcp : env.shellOk (.copyStaging cfg.dir repoDir) = true) (s : RunState) :
    syncModules cfg env repoDir s
      = (.ok (),
         { s with
             fs := copyInto
               (if s.fs.exists_ (repoDir ++ ["go.mod"]) then
                  removeDirectory s.fs repoDir false [".git"]
                else removeSubmodules repoDir (s.fs.readdir repoDir) s.fs) cfg.dir repoDir
             trace := s.trace ++ [.copyStaging cfg.dir repoDir] }) := by
  unfold syncModules
  rw [bind_readFsM]
  by_cases hx : s.fs.exists_ (repoDir ++ ["go.mod"])
  · simp only [hx, if_true, ite_true]
    rw [bind_modifyFs, bind_shell_ok hcp]
    show modifyFs _ _ = _
    unfold modifyFs
    simp
  · simp only [hx, if_false, ite_false, Bool.false_eq_true]
    rw [bind_modifyFs, bind_shell_ok hcp]
    show modifyFs _ _ = _
    unfold modifyFs
    simp

theorem createTag_run {cfg : Config} {env : Env} {mdir repoDir : FPath} {v : String} {s : RunState}
    (hv : extractVersion cfg.version s.fs mdir = .ok v)
    (htag : env.shellOk (.tagAnnotated
      (if basename mdir = basename repoDir then "v" ++ v else basename mdir ++ "/v" ++ v)) = true) :
    createTag cfg env mdir repoDir s
      = (.ok (if basename mdir = basename repoDir then "v" ++ v else basename mdir ++ "/v" ++ v),
         { s with trace := s.trace ++
             [.tagAnnotated (if basename mdir = basename repoDir then "v" ++ v
               else basename mdir ++ "/v" ++ v)] }) := by
  unfold createTag
  rw [bind_readFsM, bind_liftE_ok hv]
  rw [bind_shell_ok htag, pure_run]

theorem createTags_run_global {cfg : Config} {env : Env} {repoDir : FPath} {v : String}
    (hv : cfg.version = some v)
    (htags : ∀ t, env.shellOk (.tagAnnotated t) = true)
    (modules : List FPath) (s : RunState) :
    createTags cfg env repoDir modules s
      = (.ok (modules.map (fun m =>
            if basename m = basename repoDir then "v" ++ v else basename m ++ "/v" ++ v)),
         { s with trace := s.trace ++ (modules.map (fun m =>
             Cmd.tagAnnotated (if basename m = basename repoDir then "v" ++ v
               else basename m ++ "/v" ++ v))) }) := by
  induction modules generalizing s with
  | nil =>
    show (pure [] : RunM (List String)) s = _
    rw [pure_run]
    simp
  | cons m rest ih =>
    have hv1 : extractVersion cfg.version s.fs m = .ok v := by
      simp [extractVersion, hv]
    show (createTag cfg env m repoDir >>= fun t =>
      createTags cfg env repoDir rest >>= fun ts => pure (t :: ts)) s = _
    rw [bind_ok (createTag_run hv1 (htags _)), bind_ok (ih _), pure_run]
    simp

theorem reportTags_run (ts : List String) (s : RunState) :
    reportTags ts s
      = (.ok (), { s with console := s.console ++ ts.map (fun t => "Will push tag: " ++ t) }) := by
  induction ts generalizing s with
  | nil =>
    show (pure () : RunM Unit) s = _
    rw [pure_run]
    simp
  | cons t rest ih =>
    show (consoleLog ("Will push tag: " ++ t) >>= fun _ => reportTags rest) s = _
    rw [bind_consoleLog, ih]
    simp

theorem doPush_run_dry {cfg : Config} {env : Env} (hdry : cfg.dryRun = true)
    (ts : List String) (s : RunState) :
    doPush cfg env ts s
      = (.ok (), { s with console := s.console ++
          ("Will push to branch: " ++ cfg.gitBranch) :: ts.map (fun t => "Will push tag: " ++ t) }) := by
  unfold doPush
  rw [hdry]
  show (consoleLog _ >>= fun _ => reportTags ts) s = _
  rw [bind_consoleLog, reportTags_run]
  simp

theorem pushTags_run (env : Env) (ts : List String) (s : RunState) :
    pushTags env ts s
      = (match ts.dropWhile (fun t => env.shellOk (.push t)) with
         | [] => (.ok (), { s with trace := s.trace ++ ts.map .push })
         | t :: _ =>
           (.error (Cmd.render (.push t)),
            { s with trace := s.trace ++
                ((ts.takeWhile (fun t => env.shellOk (.push t))).map .push ++ [.push t]) })) := by
  induction ts generalizing s with
  | nil =>
    show (pure () : RunM Unit) s = _
    rw [pure_run]
    simp
  | cons t rest ih =>
    show (shell env (.push t) >>= fun _ => pushTags env rest) s = _
    by_cases ht : env.shellOk (.push t)
    · rw [bind_shell_ok ht, ih]
      simp only [List.dropWhile, List.takeWhile, ht]
      cases hd : rest.dropWhile (fun t => env.shellOk (.push t)) with
      | nil => simp
      | cons u us => simp
    · rw [bind_shell_err (by simp [ht])]
      simp only [List.dropWhile, List.takeWhile, ht]
      simp

/-- C3: for every module, version resolution obeys this priority: a
supplied global override is used regardless of any version file; with no
override the version file's contents are used verbatim; with neither, the
error raised names the specific module directory. -/
theorem extractVersion_priority (version : Option String) (fs : FileSystem) (mdir : FPath) :
    (∀ v, version = some v → extractVersion version fs mdir = .ok v)
    ∧ (version = none → fs.exists_ (mdir ++ ["version"]) = true →
        extractVersion version fs mdir = .ok (fs.readFile (mdir ++ ["version"])))
    ∧ (version = none → fs.exists_ (mdir ++ ["version"]) = false →
        extractVersion version fs mdir
          = .error ("Unable to determine version of module " ++ renderPath mdir
              ++ ". Either include a \x27version\x27 file, or specify a global version using the VERSION environment variable.")) := by
  refine ⟨?_, ?_, ?_⟩
  · intro v hv
    simp [extractVersion, hv]
  · intro hv hex
    simp [extractVersion, hv, hex]
  · intro hv hex
    simp [extractVersion, hv, hex]

/-- Witness for C3 on the concrete staging layout: the override wins even
though a version file with different contents exists; without it the file
contents `1.2.3` are used; a module directory without a version file
produces the error naming that directory. -/
theorem extractVersion_priority_witness :
    extractVersion (some "9.9.9") fsSample ["dist", "go"] = .ok "9.9.9"
    ∧ extractVersion none fsSample ["dist", "go"] = .ok "1.2.3"
    ∧ extractVersion none fsSample ["dist", "other"]
        = .error ("Unable to determine version of module dist/other"
            ++ ". Either include a \x27version\x27 file, or specify a global version using the VERSION environment variable.") := by
  refine ⟨(extractVersion_priority (some "9.9.9") fsSample ["dist", "go"]).1 "9.9.9" rfl, ?_, ?_⟩
  · have h := (extractVersion_priority none fsSample ["dist", "go"]).2.1 rfl (by decide)
    simpa using h
  · have h := (extractVersion_priority none fsSample ["dist", "other"]).2.2 rfl (by decide)
    simpa using h

/-- C6: module discovery returns the staging root as a module iff it
directly contains `go.mod`, and each immediate child directory iff that
child contains one; the result has no duplicates and contains nothing
nested deeper than one level below the staging root. -/
theorem collectModules_spec (fs : FileSystem) (dir : FPath)
    (hnd : (fs.readdir dir).Nodup) :
    (dir ∈ collectModules fs dir ↔ fs.exists_ (dir ++ ["go.mod"]) = true)
    ∧ (∀ p, dir ++ [p] ∈ collectModules fs dir ↔
        (p ∈ fs.readdir dir ∧ fs.exists_ (dir ++ [p, "go.mod"]) = true))
    ∧ (collectModules fs dir).Nodup
    ∧ ∀ m ∈ collectModules fs dir, m = dir ∨ ∃ p ∈ fs.readdir dir, m = dir ++ [p] := by
  have hne : ∀ p : String, dir ++ [p] ≠ dir := by
    intro p h
    have := congrArg List.length h
    simp at this
  refine ⟨?_, ?_, ?_, ?_⟩
  · constructor
    · intro hm
      rcases List.mem_append.1 hm with h | h
      · by_contra hex
        simp only [Bool.not_eq_true] at hex
        simp [hex] at h
      · rcases List.mem_filterMap.1 h with ⟨p, _, hp⟩
        by_cases hex : fs.exists_ (dir ++ [p, "go.mod"]) = true
        · simp [hex] at hp
        · simp only [Bool.not_eq_true] at hex
          simp [hex] at hp
    · intro hex
      exact List.mem_append.2 (Or.inl (by simp [hex]))
  · intro p
    constructor
    · intro hm
      rcases List.mem_append.1 hm with h | h
      · exfalso
        by_cases hex : fs.exists_ (dir ++ ["go.mod"]) = true
        · simp [hex] at h
        · simp only [Bool.not_eq_true] at hex
          simp [hex] at h
      · rcases List.mem_filterMap.1 h with ⟨q, hq, hpq⟩
        by_cases hex : fs.exists_ (dir ++ [q, "go.mod"]) = true
        · simp [hex] at hpq
          subst hpq
          exact ⟨hq, hex⟩
        · simp only [Bool.not_eq_true] at hex
          simp [hex] at hpq
    · intro ⟨hq, hex⟩
      refine List.mem_append.2 (Or.inr (List.mem_filterMap.2 ⟨p, hq, ?_⟩))
      simp [hex]
  · refine List.Nodup.append ?_ ?_ ?_
    · by_cases hex : fs.exists_ (dir ++ ["go.mod"]) = true
      · simp [hex]
      · simp only [Bool.not_eq_true] at hex
        simp [hex]
    · refine List.Nodup.filterMap ?_ hnd
      intro a b c hca hcb
      by_cases ha : fs.exists_ (dir ++ [a, "go.mod"]) = true
      · by_cases hb : fs.exists_ (dir ++ [b, "go.mod"]) = true
        · simp [ha] at hca
          simp [hb] at hcb
          rw [← hca] at hcb
          have := hcb
          simp at this
          exact this.symm
        · simp only [Bool.not_eq_true] at hb
          simp [hb] at hcb
      · simp only [Bool.not_eq_true] at ha
        simp [ha] at hca
    · intro m hm hm2
      rcases List.mem_filterMap.1 hm2 with ⟨q, _, hpq⟩
      by_cases hex : fs.exists_ (dir ++ [q, "go.mod"]) = true
      · simp [hex] at hpq
        by_cases hroot : fs.exists_ (dir ++ ["go.mod"]) = true
        · simp [hroot] at hm
          rw [hm] at hpq
          simp at hpq
        · simp only [Bool.not_eq_true] at hroot
          simp [hroot] at hm
      · simp only [Bool.not_eq_true] at hex
        simp [hex] at hpq
  · intro m hm
    rcases List.mem_append.1 hm with h | h
    · left
      by_cases hex : fs.exists_ (dir ++ ["go.mod"]) = true
      · simp [hex] at h
        exact h
      · simp only [Bool.not_eq_true] at hex
        simp [hex] at h
    · rcases List.mem_filterMap.1 h with ⟨q, hq, hpq⟩
      by_cases hex : fs.exists_ (dir ++ [q, "go.mod"]) = true
      · simp [hex] at hpq
        exact Or.inr ⟨q, hq, by first | exact hpq | exact hpq.symm⟩
      · simp only [Bool.not_eq_true] at hex
        simp [hex] at hpq

/-- Witness for C6 on the concrete staging layout: the root `dist/go`
holds a `go.mod` and is discovered; the entry `version` holds none and is
not; the discovered list is duplicate-free and one-level deep. -/
theorem collectModules_spec_witness :
    ((["dist", "go"] : FPath) ∈ collectModules fsSample ["dist", "go"]
        ↔ fsSample.exists_ (["dist", "go"] ++ ["go.mod"]) = true)
    ∧ (∀ p, (["dist", "go"] : FPath) ++ [p] ∈ collectModules fsSample ["dist", "go"] ↔
        (p ∈ fsSample.readdir ["dist", "go"]
          ∧ fsSample.exists_ (["dist", "go"] ++ [p, "go.mod"]) = true))
    ∧ (collectModules fsSample ["dist", "go"]).Nodup
    ∧ ∀ m ∈ collectModules fsSample ["dist", "go"],
        m = ["dist", "go"] ∨ ∃ p ∈ fsSample.readdir ["dist", "go"], m = ["dist", "go"] ++ [p] :=
  collectModules_spec fsSample ["dist", "go"] (by decide)

/-- C10: in the constructor's identity check, an empty resolved git user
email raises the message complaining about the username (git `user.name` /
`GIT_USER_NAME`), and an empty resolved git username (with a non-empty
email) raises the message complaining about the user email (git
`user.email` / `GIT_USER_EMAIL`): the two diagnostics are attached to the
opposite missing field. -/
theorem goReleaserInit_diagnostics_swapped (dirArg : Option FPath) (i : ConstructorInput)
    (hgit : i.gitAvailable = true) :
    (i.gitUserEmailEnv.getD i.configUserEmail = "" →
      goReleaserInit dirArg i
        = .error "Unable to detect username. either configure a global git user.name or pass GIT_USER_NAME env variable")
    ∧ (i.gitUserEmailEnv.getD i.configUserEmail ≠ "" →
        i.gitUserNameEnv.getD i.configUserName = "" →
        goReleaserInit dirArg i
          = .error "Unable to detect user email. either configure a global git user.email or pass GIT_USER_EMAIL env variable") := by
  constructor
  · intro hmail
    simp [goReleaserInit, hgit, hmail]
  · intro hmail hname
    simp [goReleaserInit, hgit, hmail, hname]

/-- Witness for C10: with git available, no identity environment
variables, an empty `git config user.email` and a non-empty
`git config user.name`, the raised message is the user-email one attached
to the empty username and vice versa. -/
theorem goReleaserInit_diagnostics_swapped_witness :
    goReleaserInit none
        { versionEnv := none, gitBranchEnv := none, dryRunEnv := none,
          gitUserNameEnv := none, gitUserEmailEnv := none,
          configUserName := "alice", configUserEmail := "", gitAvailable := true }
      = .error "Unable to detect username. either configure a global git user.name or pass GIT_USER_NAME env variable"
    ∧ goReleaserInit none
        { versionEnv := none, gitBranchEnv := none, dryRunEnv := none,
          gitUserNameEnv := none, gitUserEmailEnv := none,
          configUserName := "", configUserEmail := "alice@example.com", gitAvailable := true }
      = .error "Unable to detect user email. either configure a global git user.email or pass GIT_USER_EMAIL env variable" :=
  ⟨(goReleaserInit_diagnostics_swapped none _ rfl).1 (by decide),
   (goReleaserInit_diagnostics_swapped none _ rfl).2 (by decide) (by decide)⟩

/-- C9: when checking out the configured branch fails, the run does not
fail: the fallback `git checkout -b` is executed and the pipeline
continues; the checkout step succeeds exactly when the checkout or its
fallback succeeds, and no other recovery exists. -/
theorem checkoutStep_fallback_behavior (cfg : Config) (env : Env) (s : RunState) :
    (env.shellOk (.checkout cfg.gitBranch) = true →
      checkoutStep cfg env s = (.ok (), { s with trace := s.trace ++ [.checkout cfg.gitBranch] }))
    ∧ (env.shellOk (.checkout cfg.gitBranch) = false →
        env.shellOk (.checkoutNew cfg.gitBranch) = true →
        checkoutStep cfg env s
          = (.ok (), { s with trace := s.trace ++ [.checkout cfg.gitBranch, .checkoutNew cfg.gitBranch] }))
    ∧ (env.shellOk (.checkout cfg.gitBranch) = false →
        env.shellOk (.checkoutNew cfg.gitBranch) = false →
        checkoutStep cfg env s
          = (.error (Cmd.render (.checkoutNew cfg.gitBranch)),
             { s with trace := s.trace ++ [.checkout cfg.gitBranch, .checkoutNew cfg.gitBranch] })) :=
  ⟨fun h => checkoutStep_run_ok h s,
   fun h1 h2 => checkoutStep_run_fallback h1 h2 s,
   fun h1 h2 => checkoutStep_run_bothfail h1 h2 s⟩

/-- Witness for C9: in the environment where `git checkout main` fails and
everything else succeeds, the step runs the fallback
`git checkout -b main` and reports success. -/
theorem checkoutStep_fallback_behavior_witness :
    checkoutStep cfgSample envNoBranch (initState fsSample)
      = (.ok (), { initState fsSample with
          trace := [.checkout "main", .checkoutNew "main"] }) :=
  (checkoutStep_fallback_behavior cfgSample envNoBranch (initState fsSample)).2.1
    (by decide) (by decide)

/-- Counterexample to C2 as stated: in the concrete staging layout the
released module `dist/go` is the root module (the staging directory
itself, the only discovered module), its declared repository is
`acme/widgets` so the workspace is cloned at `tmp/widgets`, and its
version file reads `1.2.3`; yet `createTag` produces the tag `go/v1.2.3`,
not `v1.2.3`, because the tag is unprefixed only when the module
directory's basename equals the repository name. -/
theorem createTag_root_module_prefixed :
    collectModules fsSample ["dist", "go"] = [["dist", "go"]]
    ∧ extractRepo fsSample [["dist", "go"]] = .ok "acme/widgets"
    ∧ envSample.tmpDir ++ [strBasename "acme/widgets"] = ["tmp", "widgets"]
    ∧ extractVersion cfgSample.version fsSample ["dist", "go"] = .ok "1.2.3"
    ∧ (createTag cfgSample envSample ["dist", "go"] ["tmp", "widgets"] (initState fsSample)).1
        = .ok "go/v1.2.3"
    ∧ "go/v1.2.3" ≠ "v1.2.3" := by
  refine ⟨by decide, ?_, by decide, by decide, ?_, by decide⟩
  · decide
  · decide

/-- C2 amended: the created annotated tag is `v<version>` when the module
directory's basename equals the basename of the cloned repository
directory (the repository name), and `<basename>/v<version>` otherwise;
a root module therefore gets the unprefixed tag only when the staging
directory's basename coincides with the repository name. -/
theorem createTag_naming (cfg : Config) (env : Env) (mdir repoDir : FPath) (v : String)
    (s : RunState)
    (hv : extractVersion cfg.version s.fs mdir = .ok v)
    (htag : ∀ t, env.shellOk (.tagAnnotated t) = true) :
    createTag cfg env mdir repoDir s
      = (.ok (if basename mdir = basename repoDir then "v" ++ v else basename mdir ++ "/v" ++ v),
         { s with trace := s.trace ++
             [.tagAnnotated (if basename mdir = basename repoDir then "v" ++ v
               else basename mdir ++ "/v" ++ v)] }) :=
  createTag_run hv (htag _)

/-- Witness for the amended C2: a module named like the repository gets
`v1.2.3`, and the staging root `dist/go` against repository `widgets` gets
`go/v1.2.3`. -/
theorem createTag_naming_witness :
    createTag cfgSample envSample ["dist", "widgets"] ["tmp", "widgets"]
        { initState fsSample with fs := { fsSample with
            exists_ := fun p => p == ["dist", "widgets", "version"] || fsSample.exists_ p,
            readFile := fun p => if p == ["dist", "widgets", "version"] then "1.2.3"
              else fsSample.readFile p } }
      = (.ok "v1.2.3",
         { initState fsSample with
             fs := { fsSample with
               exists_ := fun p => p == ["dist", "widgets", "version"] || fsSample.exists_ p,
               readFile := fun p => if p == ["dist", "widgets", "version"] then "1.2.3"
                 else fsSample.readFile p }
             trace := [.tagAnnotated "v1.2.3"] }) := by
  have h := createTag_naming cfgSample envSample ["dist", "widgets"] ["tmp", "widgets"] "1.2.3"
    { initState fsSample with fs := { fsSample with
        exists_ := fun p => p == ["dist", "widgets", "version"] || fsSample.exists_ p,
        readFile := fun p => if p == ["dist", "widgets", "version"] then "1.2.3"
          else fsSample.readFile p } }
    (by decide) (fun t => rfl)
  simpa using h

theorem dropWhile_head_false {α : Type} {p : α → Bool} {l : List α} {u : α} {us : List α}
    (h : l.dropWhile p = u :: us) : p u = false := by
  induction l with
  | nil => simp at h
  | cons a l ih =>
    by_cases hp : p a
    · rw [List.dropWhile_cons_of_pos hp] at h
      exact ih h
    · rw [List.dropWhile_cons_of_neg hp] at h
      cases h
      simpa using hp

/-- C7: in normal (non-dry-run) mode the push phase runs `git push origin
<branch>` first and then pushes each created tag in discovery order; the
executed tag pushes are the successful leading ones plus the first failing
one, nothing after it runs, and the phase reports success exactly when the
branch push and every tag push succeed (any failure surfaces as the raised
error of the failing push, with no retry and no suppression). -/
theorem doPush_order_and_abort (cfg : Config) (env : Env) (ts : List String) (s : RunState)
    (hdry : cfg.dryRun = false) :
    (doPush cfg env ts s).2.trace
      = s.trace ++ Cmd.push cfg.gitBranch ::
          (if env.shellOk (.push cfg.gitBranch) = true then
            (ts.takeWhile (fun t => env.shellOk (.push t))).map Cmd.push
              ++ ((ts.dropWhile (fun t => env.shellOk (.push t))).take 1).map Cmd.push
          else [])
    ∧ ((doPush cfg env ts s).1 = .ok () ↔
        env.shellOk (.push cfg.gitBranch) = true ∧ ∀ t ∈ ts, env.shellOk (.push t) = true)
    ∧ (doPush cfg env ts s).2.console = s.console := by
  unfold doPush
  rw [hdry]
  simp only [Bool.false_eq_true, if_false, ite_false]
  by_cases hb : env.shellOk (.push cfg.gitBranch) = true
  · show (let r := (shell env (.push cfg.gitBranch) >>= fun _ => pushTags env ts) s; r).2.trace = _ ∧ _
    rw [bind_shell_ok hb, pushTags_run]
    cases hd : ts.dropWhile (fun t => env.shellOk (.push t)) with
    | nil =>
      have hall : ∀ t ∈ ts, env.shellOk (.push t) = true := by
        have := List.dropWhile_eq_nil_iff.1 hd
        simpa using this
      have htk : ts.takeWhile (fun t => env.shellOk (.push t)) = ts := by
        have := List.takeWhile_append_dropWhile (p := fun t => env.shellOk (.push t)) (l := ts)
        rw [hd] at this
        simpa using this
      refine ⟨?_, ?_, rfl⟩
      · simp [hb, htk, hd]
      · simp only [hb, true_and]
        constructor
        · intro _
          exact hall
        · intro _
          trivial
    | cons u us =>
      have hu : env.shellOk (.push u) = false :=
        dropWhile_head_false (p := fun t => env.shellOk (.push t)) hd
      have humem : u ∈ ts := by
        have hsplit := List.takeWhile_append_dropWhile (p := fun t => env.shellOk (.push t)) (l := ts)
        rw [← hsplit]
        refine List.mem_append_right _ ?_
        rw [hd]
        exact List.mem_cons_self u us
      refine ⟨?_, ?_, rfl⟩
      · simp [hb, hd]
      · constructor
        · intro h
          exact absurd h (by simp)
        · intro ⟨_, hall⟩
          rw [hall u humem] at hu
          cases hu
  · have hb2 : env.shellOk (.push cfg.gitBranch) = false := by
      simpa using hb
    show (let r := (shell env (.push cfg.gitBranch) >>= fun _ => pushTags env ts) s; r).2.trace = _ ∧ _
    rw [bind_shell_err hb2]
    refine ⟨by simp [hb2], ?_, rfl⟩
    constructor
    · intro h
      exact absurd h (by simp)
    · intro ⟨h1, _⟩
      rw [h1] at hb2
      cases hb2

/-- Witness for C7: with tags `t1, t2, t3` where pushing `t2` fails, the
executed commands are the branch push, the `t1` push and the failing `t2`
push — `t3` is never pushed — and the phase does not succeed. -/
theorem doPush_order_and_abort_witness :
    (doPush cfgSample envPushFail ["t1", "t2", "t3"] (initState fsSample)).2.trace
      = (initState fsSample).trace ++ Cmd.push cfgSample.gitBranch ::
          (if envPushFail.shellOk (.push cfgSample.gitBranch) = true then
            ((["t1", "t2", "t3"].takeWhile (fun t => envPushFail.shellOk (.push t))).map Cmd.push
              ++ ((["t1", "t2", "t3"].dropWhile (fun t => envPushFail.shellOk (.push t))).take 1).map Cmd.push)
          else [])
    ∧ ((doPush cfgSample envPushFail ["t1", "t2", "t3"] (initState fsSample)).1 = .ok () ↔
        envPushFail.shellOk (.push cfgSample.gitBranch) = true
          ∧ ∀ t ∈ ["t1", "t2", "t3"], envPushFail.shellOk (.push t) = true)
    ∧ (doPush cfgSample envPushFail ["t1", "t2", "t3"] (initState fsSample)).2.console
        = (initState fsSample).console :=
  doPush_order_and_abort cfgSample envPushFail ["t1", "t2", "t3"] (initState fsSample) rfl

/-- C5: when the discovered modules declare more than one distinct
owner/repo pair, the run fails with the multiple-repositories error and
its trace is empty: no external command — in particular no clone and no
push — was ever invoked. -/
theorem release_multi_repo_aborts_before_clone (cfg : Config) (env : Env) (fs : FileSystem)
    (rs : List String)
    (h : collectRepos fs (collectModules fs cfg.dir) [] = .ok rs)
    (hlen : 1 < rs.length) :
    (release cfg env (initState fs)).1 = .error "Multiple repositories found in module files"
      ∧ (release cfg env (initState fs)).2.trace = [] := by
  have hrepo : extractRepo fs (collectModules fs cfg.dir)
      = .error "Multiple repositories found in module files" := by
    unfold extractRepo
    rw [h]
    have h0 : rs.length ≠ 0 := by omega
    simp [h0, hlen]
  have step : release cfg env (initState fs) =
      (.error "Multiple repositories found in module files",
        { initState fs with console :=
            ["Detected modules:"] ++ (collectModules fs cfg.dir).map (fun m => " - " ++ renderPath m) }) := by
    show (readFsM >>= fun fs0 => _) (initState fs) = _
    rw [bind_readFsM]
    simp only [initState]
    rw [bind_consoleLog, bind_logModules, bind_liftE_err hrepo]
    simp
  rw [step]
  exact ⟨rfl, rfl⟩

/-- Witness for C5: the concrete staging layout with modules declaring
`a/r1` and `a/r2` makes the run fail with the multiple-repositories error
and an empty command trace. -/
theorem release_multi_repo_aborts_before_clone_witness :
    (release cfgSample envSample (initState fsMulti)).1
        = .error "Multiple repositories found in module files"
      ∧ (release cfgSample envSample (initState fsMulti)).2.trace = [] :=
  release_multi_repo_aborts_before_clone cfgSample envSample fsMulti ["a/r1", "a/r2"]
    (by decide) (by decide)

/-- C4: when the run reaches the staging step and the diff against the
current commit is empty (`git add .` and `git diff-index --exit-code`
both succeed), the run terminates successfully reporting no tags, and its
trace contains no commit, no tag creation and no push. -/
theorem release_noop_on_empty_diff (cfg : Config) (env : Env) (fs : FileSystem)
    (repo tok : String)
    (hrepo : extractRepo fs (collectModules fs cfg.dir) = .ok repo)
    (htok : env.githubToken = some tok)
    (hclone : env.shellOk (.clone tok repo (env.tmpDir ++ [strBasename repo])) = true)
    (hco : env.shellOk (.checkout cfg.gitBranch) = true
      ∨ env.shellOk (.checkoutNew cfg.gitBranch) = true)
    (hcp : env.shellOk (.copyStaging cfg.dir (env.tmpDir ++ [strBasename repo])) = true)
    (hadd : env.shellOk .addAll = true)
    (hdiff : env.shellOk .diffIndexQuiet = true) :
    (release cfg env (initState fs)).1 = .ok { tags := none }
    ∧ ∀ c ∈ (release cfg env (initState fs)).2.trace,
        c.isCommit = false ∧ c.isTagCmd = false ∧ c.isPush = false := by
  by_cases hck : env.shellOk (.checkout cfg.gitBranch) = true
  · have hrel : release cfg env (initState fs)
        = (.ok { tags := none },
           { fs := copyInto
               (if fs.exists_ ((env.tmpDir ++ [strBasename repo]) ++ ["go.mod"]) then
                  removeDirectory fs (env.tmpDir ++ [strBasename repo]) false [".git"]
                else removeSubmodules (env.tmpDir ++ [strBasename repo])
                  (fs.readdir (env.tmpDir ++ [strBasename repo])) fs) cfg.dir
               (env.tmpDir ++ [strBasename repo]),
             trace := [.clone tok repo (env.tmpDir ++ [strBasename repo]),
               .checkout cfg.gitBranch,
               .copyStaging cfg.dir (env.tmpDir ++ [strBasename repo]),
               .addAll, .diffIndexQuiet],
             console := "Detected modules:" ::
               ((collectModules fs cfg.dir).map (fun m => " - " ++ renderPath m)
                 ++ ["No changes. Skipping release"]) }) := by
      show (readFsM >>= fun fs0 => _) (initState fs) = _
      rw [bind_readFsM]
      simp only [initState]
      rw [bind_consoleLog, bind_logModules, bind_liftE_ok hrepo]
      show (cloneGitHub env repo (env.tmpDir ++ [strBasename repo]) >>= fun _ => _) _ = _
      rw [bind_ok (cloneGitHub_run repo _ htok hclone _)]
      show (checkoutStep cfg env >>= fun _ => _) _ = _
      rw [bind_ok (checkoutStep_run_ok hck _)]
      show (syncModules cfg env (env.tmpDir ++ [strBasename repo]) >>= fun _ => _) _ = _
      rw [bind_ok (syncModules_run _ hcp _)]
      show (stageAndCheck env >>= fun noChanges => _) _ = _
      rw [bind_ok (stageAndCheck_run_nochange hadd hdiff _)]
      show (consoleLog "No changes. Skipping release" >>= fun _ =>
        (pure { tags := none } : RunM GoRelease)) _ = _
      rw [bind_consoleLog, pure_run]
      rfl
    rw [hrel]
    refine ⟨rfl, ?_⟩
    intro c hc
    simp only [List.mem_cons, List.not_mem_nil, or_false] at hc
    rcases hc with h | h | h | h | h <;> subst h <;> exact ⟨rfl, rfl, rfl⟩
  · have hnew : env.shellOk (.checkoutNew cfg.gitBranch) = true := by
      rcases hco with h | h
      · exact absurd h hck
      · exact h
    have hck2 : env.shellOk (.checkout cfg.gitBranch) = false := by
      simpa using hck
    have hrel : release cfg env (initState fs)
        = (.ok { tags := none },
           { fs := copyInto
               (if fs.exists_ ((env.tmpDir ++ [strBasename repo]) ++ ["go.mod"]) then
                  removeDirectory fs (env.tmpDir ++ [strBasename repo]) false [".git"]
                else removeSubmodules (env.tmpDir ++ [strBasename repo])
                  (fs.readdir (env.tmpDir ++ [strBasename repo])) fs) cfg.dir
               (env.tmpDir ++ [strBasename repo]),
             trace := [.clone tok repo (env.tmpDir ++ [strBasename repo]),
               .checkout cfg.gitBranch, .checkoutNew cfg.gitBranch,
               .copyStaging cfg.dir (env.tmpDir ++ [strBasename repo]),
               .addAll, .diffIndexQuiet],
             console := "Detected modules:" ::
               ((collectModules fs cfg.dir).map (fun m => " - " ++ renderPath m)
                 ++ ["No changes. Skipping release"]) }) := by
      show (readFsM >>= fun fs0 => _) (initState fs) = _
      rw [bind_readFsM]
      simp only [initState]
      rw [bind_consoleLog, bind_logModules, bind_liftE_ok hrepo]
      show (cloneGitHub env repo (env.tmpDir ++ [strBasename repo]) >>= fun _ => _) _ = _
      rw [bind_ok (cloneGitHub_run repo _ htok hclone _)]
      show (checkoutStep cfg env >>= fun _ => _) _ = _
      rw [bind_ok (checkoutStep_run_fallback hck2 hnew _)]
      show (syncModules cfg env (env.tmpDir ++ [strBasename repo]) >>= fun _ => _) _ = _
      rw [bind_ok (syncModules_run _ hcp _)]
      show (stageAndCheck env >>= fun noChanges => _) _ = _
      rw [bind_ok (stageAndCheck_run_nochange hadd hdiff _)]
      show (consoleLog "No changes. Skipping release" >>= fun _ =>
        (pure { tags := none } : RunM GoRelease)) _ = _
      rw [bind_consoleLog, pure_run]
      rfl
    rw [hrel]
    refine ⟨rfl, ?_⟩
    intro c hc
    simp only [List.mem_cons, List.not_mem_nil, or_false] at hc
    rcases hc with h | h | h | h | h | h <;> subst h <;> exact ⟨rfl, rfl, rfl⟩

/-- Witness for C4: on the concrete staging layout, in the environment
where every command succeeds (so the diff is empty), the run returns no
tags and its trace holds no commit, tag or push command. -/
theorem release_noop_on_empty_diff_witness :
    (release cfgSample envAllOk (initState fsSample)).1 = .ok { tags := none }
    ∧ ∀ c ∈ (release cfgSample envAllOk (initState fsSample)).2.trace,
        c.isCommit = false ∧ c.isTagCmd = false ∧ c.isPush = false :=
  release_noop_on_empty_diff cfgSample envAllOk fsSample "acme/widgets" "tok"
    (by decide) rfl rfl (Or.inl rfl) rfl rfl rfl

theorem bind_pure_snd {α β : Type} (x : RunM α) (g : α → β) (s : RunState) :
    ((x >>= fun a => pure (g a)) s).2 = (x s).2 := by
  show (match x s with
    | (.ok a, s1) => (pure (g a) : RunM β) s1
    | (.error e, s1) => (Except.error e, s1)).2 = (x s).2
  rcases hx : x s with ⟨r, s1⟩
  cases r <;> rfl

theorem release_run_to_push (cfg : Config) (env : Env) (fs : FileSystem)
    (repo tok v : String)
    (hrepo : extractRepo fs (collectModules fs cfg.dir) = .ok repo)
    (htok : env.githubToken = some tok)
    (hclone : env.shellOk (.clone tok repo (env.tmpDir ++ [strBasename repo])) = true)
    (hck : env.shellOk (.checkout cfg.gitBranch) = true)
    (hcp : env.shellOk (.copyStaging cfg.dir (env.tmpDir ++ [strBasename repo])) = true)
    (hadd : env.shellOk .addAll = true)
    (hdiff : env.shellOk .diffIndexQuiet = false)
    (hv : cfg.version = some v)
    (hmsg : env.commitMessage = none)
    (hcfgn : env.shellOk (.configUserName cfg.gitUsername) = true)
    (hcfge : env.shellOk (.configUserEmail cfg.gitUseremail) = true)
    (hcommit : env.shellOk (.commit ("chore(release): " ++ v)) = true)
    (htags : ∀ t, env.shellOk (.tagAnnotated t) = true) :
    release cfg env (initState fs)
      = ((doPush cfg env ((collectModules fs cfg.dir).map (fun m =>
            if basename m = basename (env.tmpDir ++ [strBasename repo]) then "v" ++ v
            else basename m ++ "/v" ++ v)) >>= fun _ =>
          (pure { tags := some ((collectModules fs cfg.dir).map (fun m =>
            if basename m = basename (env.tmpDir ++ [strBasename repo]) then "v" ++ v
            else basename m ++ "/v" ++ v)) } : RunM GoRelease))
         { fs := copyInto
             (if fs.exists_ ((env.tmpDir ++ [strBasename repo]) ++ ["go.mod"]) then
                removeDirectory fs (env.tmpDir ++ [strBasename repo]) false [".git"]
              else removeSubmodules (env.tmpDir ++ [strBasename repo])
                (fs.readdir (env.tmpDir ++ [strBasename repo])) fs) cfg.dir
             (env.tmpDir ++ [strBasename repo]),
           trace := [.clone tok repo (env.tmpDir ++ [strBasename repo]),
             .checkout cfg.gitBranch,
             .copyStaging cfg.dir (env.tmpDir ++ [strBasename repo]),
             .addAll, .diffIndexQuiet,
             .configUserName cfg.gitUsername, .configUserEmail cfg.gitUseremail,
             .commit ("chore(release): " ++ v)] ++
             ((collectModules fs cfg.dir).map (fun m =>
               Cmd.tagAnnotated (if basename m = basename (env.tmpDir ++ [strBasename repo])
                 then "v" ++ v else basename m ++ "/v" ++ v))),
           console := "Detected modules:" ::
             (collectModules fs cfg.dir).map (fun m => " - " ++ renderPath m) }) := by
  have hmsg2 : ∀ F : FileSystem, createReleaseMessage cfg.version F (collectModules fs cfg.dir)
      = .ok ("chore(release): " ++ v) := by
    intro F
    rw [hv]
    rfl
  show (readFsM >>= fun fs0 => _) (initState fs) = _
  rw [bind_readFsM]
  simp only [initState]
  rw [bind_consoleLog, bind_logModules, bind_liftE_ok hrepo]
  show (cloneGitHub env repo (env.tmpDir ++ [strBasename repo]) >>= fun _ => _) _ = _
  rw [bind_ok (cloneGitHub_run repo _ htok hclone _)]
  show (checkoutStep cfg env >>= fun _ => _) _ = _
  rw [bind_ok (checkoutStep_run_ok hck _)]
  show (syncModules cfg env (env.tmpDir ++ [strBasename repo]) >>= fun _ => _) _ = _
  rw [bind_ok (syncModules_run _ hcp _)]
  show (stageAndCheck env >>= fun noChanges => _) _ = _
  rw [bind_ok (stageAndCheck_run_diff hadd hdiff _)]
  show (shell env (.configUserName cfg.gitUsername) >>= fun _ => _) _ = _
  rw [bind_shell_ok hcfgn]
  show (shell env (.configUserEmail cfg.gitUseremail) >>= fun _ => _) _ = _
  rw [bind_shell_ok hcfge]
  simp only [hmsg]
  show (readFsM >>= fun fs1 => _) _ = _
  rw [bind_readFsM]
  show (liftE _ >>= fun y => _) _ = _
  rw [bind_liftE_ok (hmsg2 _)]
  show (shell env (.commit ("chore(release): " ++ v)) >>= fun _ => _) _ = _
  rw [bind_shell_ok hcommit]
  show (createTags cfg env (env.tmpDir ++ [strBasename repo]) (collectModules fs cfg.dir)
    >>= fun tags => _) _ = _
  rw [bind_ok (createTags_run_global hv htags _ _)]
  rfl

/-- C8: in dry-run mode, with a global version override, the annotated
tags for every discovered module are created locally exactly as in normal
mode (the tag-creation commands of the dry run equal those of the normal
run), no push command is ever executed, the would-be push targets — the
branch and each tag — are reported on the console, and the returned
metadata still lists the created tags. -/
theorem release_dry_run_behavior (cfg : Config) (env : Env) (fs : FileSystem)
    (repo tok v : String)
    (hdry : cfg.dryRun = true)
    (hrepo : extractRepo fs (collectModules fs cfg.dir) = .ok repo)
    (htok : env.githubToken = some tok)
    (hclone : env.shellOk (.clone tok repo (env.tmpDir ++ [strBasename repo])) = true)
    (hck : env.shellOk (.checkout cfg.gitBranch) = true)
    (hcp : env.shellOk (.copyStaging cfg.dir (env.tmpDir ++ [strBasename repo])) = true)
    (hadd : env.shellOk .addAll = true)
    (hdiff : env.shellOk .diffIndexQuiet = false)
    (hv : cfg.version = some v)
    (hmsg : env.commitMessage = none)
    (hcfgn : env.shellOk (.configUserName cfg.gitUsername) = true)
    (hcfge : env.shellOk (.configUserEmail cfg.gitUseremail) = true)
    (hcommit : env.shellOk (.commit ("chore(release): " ++ v)) = true)
    (htags : ∀ t, env.shellOk (.tagAnnotated t) = true)
    (cfgN : Config) (hcfgN : cfgN = { cfg with dryRun := false }) :
    (release cfg env (initState fs)).1
        = .ok { tags := some ((collectModules fs cfg.dir).map (fun m =>
            if basename m = basename (env.tmpDir ++ [strBasename repo]) then "v" ++ v
            else basename m ++ "/v" ++ v)) }
    ∧ (release cfg env (initState fs)).2.trace
        = [.clone tok repo (env.tmpDir ++ [strBasename repo]),
           .checkout cfg.gitBranch,
           .copyStaging cfg.dir (env.tmpDir ++ [strBasename repo]),
           .addAll, .diffIndexQuiet,
           .configUserName cfg.gitUsername, .configUserEmail cfg.gitUseremail,
           .commit ("chore(release): " ++ v)] ++
          ((collectModules fs cfg.dir).map (fun m =>
            Cmd.tagAnnotated (if basename m = basename (env.tmpDir ++ [strBasename repo])
              then "v" ++ v else basename m ++ "/v" ++ v)))
    ∧ (∀ c ∈ (release cfg env (initState fs)).2.trace, c.isPush = false)
    ∧ (release cfg env (initState fs)).2.console
        = "Detected modules:" ::
            ((collectModules fs cfg.dir).map (fun m => " - " ++ renderPath m) ++
              ("Will push to branch: " ++ cfg.gitBranch) ::
                (collectModules fs cfg.dir).map (fun m =>
                  "Will push tag: " ++ (if basename m = basename (env.tmpDir ++ [strBasename repo])
                    then "v" ++ v else basename m ++ "/v" ++ v)))
    ∧ (release cfgN env (initState fs)).2.trace.filter
          (fun c => c.isTagCmd)
        = (collectModules fs cfg.dir).map (fun m =>
            Cmd.tagAnnotated (if basename m = basename (env.tmpDir ++ [strBasename repo])
              then "v" ++ v else basename m ++ "/v" ++ v)) := by
  subst hcfgN
  have h1 := release_run_to_push cfg env fs repo tok v hrepo htok hclone hck hcp hadd hdiff
    hv hmsg hcfgn hcfge hcommit htags
  have hfull : release cfg env (initState fs)
      = (.ok { tags := some ((collectModules fs cfg.dir).map (fun m =>
            if basename m = basename (env.tmpDir ++ [strBasename repo]) then "v" ++ v
            else basename m ++ "/v" ++ v)) },
         { fs := copyInto
             (if fs.exists_ ((env.tmpDir ++ [strBasename repo]) ++ ["go.mod"]) then
                removeDirectory fs (env.tmpDir ++ [strBasename repo]) false [".git"]
              else removeSubmodules (env.tmpDir ++ [strBasename repo])
                (fs.readdir (env.tmpDir ++ [strBasename repo])) fs) cfg.dir
             (env.tmpDir ++ [strBasename repo]),
           trace := [.clone tok repo (env.tmpDir ++ [strBasename repo]),
             .checkout cfg.gitBranch,
             .copyStaging cfg.dir (env.tmpDir ++ [strBasename repo]),
             .addAll, .diffIndexQuiet,
             .configUserName cfg.gitUsername, .configUserEmail cfg.gitUseremail,
             .commit ("chore(release): " ++ v)] ++
             ((collectModules fs cfg.dir).map (fun m =>
               Cmd.tagAnnotated (if basename m = basename (env.tmpDir ++ [strBasename repo])
                 then "v" ++ v else basename m ++ "/v" ++ v))),
           console := "Detected modules:" ::
             ((collectModules fs cfg.dir).map (fun m => " - " ++ renderPath m) ++
               ("Will push to branch: " ++ cfg.gitBranch) ::
                 (collectModules fs cfg.dir).map (fun m =>
                   "Will push tag: " ++ (if basename m = basename (env.tmpDir ++ [strBasename repo])
                     then "v" ++ v else basename m ++ "/v" ++ v))) }) := by
    rw [h1]
    rw [bind_ok (doPush_run_dry hdry _ _)]
    rw [pure_run]
    simp
  refine ⟨by rw [hfull], by rw [hfull], ?_, by rw [hfull], ?_⟩
  · rw [hfull]
    intro c hc
    rcases List.mem_append.1 hc with h | h
    · simp only [List.mem_cons, List.not_mem_nil, or_false] at h
      rcases h with h | h | h | h | h | h | h | h <;> subst h <;> rfl
    · rcases List.mem_map.1 h with ⟨t, _, rfl⟩
      rfl
  · have h2 := release_run_to_push { cfg with dryRun := false } env fs repo tok v hrepo htok
      hclone hck hcp hadd hdiff hv hmsg hcfgn hcfge hcommit htags
    rw [h2, bind_pure_snd]
    rw [(doPush_order_and_abort { cfg with dryRun := false } env
      ((collectModules fs cfg.dir).map (fun m =>
        if basename m = basename (env.tmpDir ++ [strBasename repo]) then "v" ++ v
        else basename m ++ "/v" ++ v)) _ rfl).1]
    rw [List.filter_append, List.filter_append]
    have htagmap : (List.map (fun m =>
          Cmd.tagAnnotated (if basename m = basename (env.tmpDir ++ [strBasename repo])
            then "v" ++ v else basename m ++ "/v" ++ v)) (collectModules fs cfg.dir)).filter
            (fun c => c.isTagCmd)
        = List.map (fun m =>
            Cmd.tagAnnotated (if basename m = basename (env.tmpDir ++ [strBasename repo])
              then "v" ++ v else basename m ++ "/v" ++ v)) (collectModules fs cfg.dir) := by
      refine List.filter_eq_self.2 ?_
      intro c hc
      rcases List.mem_map.1 hc with ⟨m, _, rfl⟩
      rfl
    rw [htagmap]
    have h4 : ∀ b : String, ∀ X : List Cmd, (∀ c ∈ X, c.isTagCmd = false) →
        (Cmd.push b :: X).filter (fun c => c.isTagCmd) = [] := by
      intro b X hX
      rw [List.filter_cons]
      simp only [Cmd.isTagCmd]
      rw [if_neg (by simp)]
      rw [List.filter_eq_nil_iff.2 (by
        intro a ha
        have hfa := hX a ha
        cases a <;> simp_all [Cmd.isTagCmd])]
    rw [h4]
    · simp [List.filter, Cmd.isTagCmd]
    · intro c hc
      split at hc
      · rcases List.mem_append.1 hc with h | h
        · rcases List.mem_map.1 h with ⟨t, _, rfl⟩
          rfl
        · rcases List.mem_map.1 h with ⟨t, _, rfl⟩
          rfl
      · simp at hc

/-- Witness for C8: the concrete dry run over the staging layout creates
the tag commands, pushes nothing, reports the branch and tag it would
push, returns the created tag in the metadata, and creates exactly the
tag commands the normal-mode run creates. -/
theorem release_dry_run_behavior_witness :
    (release cfgDry envSample (initState fsSample)).1
        = .ok { tags := some ((collectModules fsSample cfgDry.dir).map (fun m =>
            if basename m = basename (envSample.tmpDir ++ [strBasename "acme/widgets"])
            then "v" ++ "2.0.0" else basename m ++ "/v" ++ "2.0.0")) }
    ∧ (release cfgDry envSample (initState fsSample)).2.trace
        = [.clone "tok" "acme/widgets" (envSample.tmpDir ++ [strBasename "acme/widgets"]),
           .checkout cfgDry.gitBranch,
           .copyStaging cfgDry.dir (envSample.tmpDir ++ [strBasename "acme/widgets"]),
           .addAll, .diffIndexQuiet,
           .configUserName cfgDry.gitUsername, .configUserEmail cfgDry.gitUseremail,
           .commit ("chore(release): " ++ "2.0.0")] ++
          ((collectModules fsSample cfgDry.dir).map (fun m =>
            Cmd.tagAnnotated (if basename m
                = basename (envSample.tmpDir ++ [strBasename "acme/widgets"])
              then "v" ++ "2.0.0" else basename m ++ "/v" ++ "2.0.0")))
    ∧ (∀ c ∈ (release cfgDry envSample (initState fsSample)).2.trace, c.isPush = false)
    ∧ (release cfgDry envSample (initState fsSample)).2.console
        = "Detected modules:" ::
            ((collectModules fsSample cfgDry.dir).map (fun m => " - " ++ renderPath m) ++
              ("Will push to branch: " ++ cfgDry.gitBranch) ::
                (collectModules fsSample cfgDry.dir).map (fun m =>
                  "Will push tag: " ++ (if basename m
                      = basename (envSample.tmpDir ++ [strBasename "acme/widgets"])
                    then "v" ++ "2.0.0" else basename m ++ "/v" ++ "2.0.0")))
    ∧ (release cfgNormal envSample (initState fsSample)).2.trace.filter
          (fun c => c.isTagCmd)
        = (collectModules fsSample cfgDry.dir).map (fun m =>
            Cmd.tagAnnotated (if basename m
                = basename (envSample.tmpDir ++ [strBasename "acme/widgets"])
              then "v" ++ "2.0.0" else basename m ++ "/v" ++ "2.0.0")) :=
  release_dry_run_behavior cfgDry envSample fsSample "acme/widgets" "tok" "2.0.0"
    rfl (by decide) rfl rfl rfl rfl rfl rfl rfl rfl rfl rfl rfl (fun t => rfl) cfgNormal rfl

theorem isPrefixOf_self_append (a b : List String) : a.isPrefixOf (a ++ b) = true := by
  rw [List.isPrefixOf_iff_prefix]
  exact List.prefix_append a b

theorem isPrefixOf_append_extend_false {a p : List String} (q : List String)
    (h : a.isPrefixOf p = false) : (a ++ q).isPrefixOf p = false := by
  by_contra hq
  have hq2 : (a ++ q).isPrefixOf p = true := by
    revert hq
    cases (a ++ q).isPrefixOf p <;> simp
  rw [List.isPrefixOf_iff_prefix] at hq2
  have : a <+: p := List.IsPrefix.trans (List.prefix_append a q) hq2
  rw [← List.isPrefixOf_iff_prefix] at this
  rw [this] at h
  cases h

theorem isPrefixOf_append_singleton_cons (a : List String) (x e : String) (rest : List String) :
    (a ++ [x]).isPrefixOf (a ++ e :: rest) = (x == e) := by
  induction a with
  | nil => simp [List.isPrefixOf]
  | cons y ys ih => simpa [List.isPrefixOf] using ih

theorem beq_append_cons_self (a : List String) (e : String) (rest : List String) :
    ((a ++ e :: rest) == a) = false := by
  have hne : a ++ e :: rest ≠ a := by
    intro h
    have := congrArg List.length h
    simp at this
  simpa using hne

theorem removesPath_outside {dir p : List String} (i : Bool) (ex : List String)
    (h : dir.isPrefixOf p = false) : removesPath dir i ex p = false := by
  simp [removesPath, h]

theorem removesPath_append_cons (dir : List String) (i : Bool) (ex : List String)
    (e : String) (rest : List String) :
    removesPath dir i ex (dir ++ e :: rest) = !(ex.contains e) := by
  simp only [removesPath, isPrefixOf_self_append, if_true, List.drop_left]

theorem removesPath_sub_true (repoDir : List String) (e : String) (rest : List String) :
    removesPath (repoDir ++ [e]) true [] (repoDir ++ e :: rest) = true := by
  have hsplit : repoDir ++ e :: rest = (repoDir ++ [e]) ++ rest := by
    simp [List.append_assoc]
  rw [hsplit]
  simp only [removesPath, isPrefixOf_self_append, if_true, List.drop_left]
  cases rest <;> simp [List.contains]

theorem removesPath_sub_false (repoDir : List String) {x e : String} (rest : List String)
    (hne : (x == e) = false) :
    removesPath (repoDir ++ [x]) true [] (repoDir ++ e :: rest) = false := by
  simp only [removesPath, isPrefixOf_append_singleton_cons, hne]
  rfl

theorem removeDirectory_exists (fs : FileSystem) (d : List String) (i : Bool) (ex : List String)
    (p : List String) :
    (removeDirectory fs d i ex).exists_ p
      = if removesPath d i ex p then false else fs.exists_ p := rfl

theorem removeDirectory_readFile (fs : FileSystem) (d : List String) (i : Bool) (ex : List String)
    (p : List String) : (removeDirectory fs d i ex).readFile p = fs.readFile p := rfl

theorem removeSubmodules_readFile (repoDir : List String) (entries : List String)
    (fs : FileSystem) (p : List String) :
    (removeSubmodules repoDir entries fs).readFile p = fs.readFile p := by
  induction entries generalizing fs with
  | nil => rfl
  | cons e es ih =>
    show (es.foldl _ (if fs.exists_ (repoDir ++ [e, "go.mod"]) then _ else fs)).readFile p = _
    by_cases hgo : fs.exists_ (repoDir ++ [e, "go.mod"])
    · rw [if_pos hgo]
      exact ih _
    · rw [if_neg hgo]
      exact ih _

theorem any_congr_mem {l : List String} {f g : String → Bool}
    (h : ∀ x ∈ l, f x = g x) : l.any f = l.any g := by
  induction l with
  | nil => rfl
  | cons a as ih =>
    simp only [List.any_cons]
    rw [h a (List.mem_cons_self a as), ih (fun x hx => h x (List.mem_cons.2 (Or.inr hx)))]

theorem removeSubmodules_exists (repoDir : List String) (entries : List String)
    (fs : FileSystem) (p : List String) :
    (removeSubmodules repoDir entries fs).exists_ p
      = (fs.exists_ p && !(entries.any (fun e => fs.exists_ (repoDir ++ [e, "go.mod"])
          && removesPath (repoDir ++ [e]) true [] p))) := by
  induction entries generalizing fs with
  | nil => simp [removeSubmodules]
  | cons e es ih =>
    show (removeSubmodules repoDir es (if fs.exists_ (repoDir ++ [e, "go.mod"]) then
      removeDirectory fs (repoDir ++ [e]) true [] else fs)).exists_ p = _
    by_cases hgo : fs.exists_ (repoDir ++ [e, "go.mod"])
    · rw [if_pos hgo, ih]
      by_cases hrp : removesPath (repoDir ++ [e]) true [] p = true
      · simp [removeDirectory_exists, hrp, hgo, List.any_cons]
      · have hrp2 : removesPath (repoDir ++ [e]) true [] p = false := by
          revert hrp
          cases removesPath (repoDir ++ [e]) true [] p <;> simp
        have hany : es.any (fun x => (removeDirectory fs (repoDir ++ [e]) true []).exists_
              (repoDir ++ [x, "go.mod"]) && removesPath (repoDir ++ [x]) true [] p)
            = es.any (fun x => fs.exists_ (repoDir ++ [x, "go.mod"])
              && removesPath (repoDir ++ [x]) true [] p) := by
          refine any_congr_mem ?_
          intro x _
          rw [removeDirectory_exists]
          by_cases hxe : x = e
          · subst hxe
            have hrem : removesPath (repoDir ++ [x]) true [] (repoDir ++ [x, "go.mod"])
                = true := by
              have := removesPath_sub_true repoDir x ["go.mod"]
              simpa using this
            rw [if_pos hrem]
            simp [hrp2]
          · have hxe2 : (e == x) = false := by
              rcases hbeq : e == x with _ | _
              · rfl
              · exact absurd (eq_of_beq hbeq).symm hxe
            have hrem : removesPath (repoDir ++ [e]) true [] (repoDir ++ [x, "go.mod"])
                = false := by
              have := removesPath_sub_false repoDir (x := e) (e := x) ["go.mod"] hxe2
              simpa using this
            rw [if_neg (by simp [hrem])]
        rw [hany]
        simp [removeDirectory_exists, hrp2, List.any_cons]
    · rw [if_neg hgo, ih]
      have hgo2 : fs.exists_ (repoDir ++ [e, "go.mod"]) = false := by
        revert hgo
        cases fs.exists_ (repoDir ++ [e, "go.mod"]) <;> simp
      simp [List.any_cons, hgo2]

theorem any_false_of_all {l : List String} {f : String → Bool}
    (h : ∀ x ∈ l, f x = false) : l.any f = false := by
  induction l with
  | nil => rfl
  | cons a as ih =>
    simp only [List.any_cons]
    rw [h a (List.mem_cons_self a as), ih (fun x hx => h x (List.mem_cons.2 (Or.inr hx)))]
    rfl

theorem copiedFrom_append_cons (src dst : FPath) (e : String) (rest : List String) :
    copiedFrom src dst (dst ++ e :: rest) = some (src ++ e :: rest) := by
  simp [copiedFrom, isPrefixOf_self_append, beq_append_cons_self, List.drop_left]

theorem copiedFrom_outside {dst p : FPath} (src : FPath)
    (h : dst.isPrefixOf p = false) : copiedFrom src dst p = none := by
  simp [copiedFrom, h]

theorem copyInto_exists_append_cons (fs : FileSystem) (src dst : FPath) (e : String)
    (rest : List String) :
    (copyInto fs src dst).exists_ (dst ++ e :: rest)
      = (fs.exists_ (src ++ e :: rest) || fs.exists_ (dst ++ e :: rest)) := by
  show (match copiedFrom src dst (dst ++ e :: rest) with
    | some q => fs.exists_ q || fs.exists_ (dst ++ e :: rest)
    | none => fs.exists_ (dst ++ e :: rest)) = _
  rw [copiedFrom_append_cons]

theorem copyInto_readFile_append_cons (fs : FileSystem) (src dst : FPath) (e : String)
    (rest : List String) :
    (copyInto fs src dst).readFile (dst ++ e :: rest)
      = if fs.exists_ (src ++ e :: rest) then fs.readFile (src ++ e :: rest)
        else fs.readFile (dst ++ e :: rest) := by
  show (match copiedFrom src dst (dst ++ e :: rest) with
    | some q => if fs.exists_ q then fs.readFile q else fs.readFile (dst ++ e :: rest)
    | none => fs.readFile (dst ++ e :: rest)) = _
  rw [copiedFrom_append_cons]

theorem copyInto_exists_outside (fs : FileSystem) (src : FPath) {dst p : FPath}
    (h : dst.isPrefixOf p = false) :
    (copyInto fs src dst).exists_ p = fs.exists_ p := by
  show (match copiedFrom src dst p with
    | some q => fs.exists_ q || fs.exists_ p
    | none => fs.exists_ p) = _
  rw [copiedFrom_outside src h]

theorem copyInto_readFile_outside (fs : FileSystem) (src : FPath) {dst p : FPath}
    (h : dst.isPrefixOf p = false) :
    (copyInto fs src dst).readFile p = fs.readFile p := by
  show (match copiedFrom src dst p with
    | some q => if fs.exists_ q then fs.readFile q else fs.readFile p
    | none => fs.readFile p) = _
  rw [copiedFrom_outside src h]

/-- C1 amended: whole-repository clearing versus per-submodule clearing is
decided by whether the cloned workspace (not the staging directory)
contains `go.mod` at its root.  If it does, every file below the workspace
except the `.git` subtree is removed and replaced by the staging
directory's contents (the `.git` subtree is untouched as long as the
staging directory holds no counterpart for it).  Otherwise only the
workspace entries that hold a `go.mod` are removed and replaced by the
corresponding staging content, and the staging contents are copied over
the rest, so a workspace file outside the removed submodules keeps its
existence and content exactly when the staging directory holds no
counterpart for it; paths outside the workspace are never touched. -/
theorem syncModules_effect (cfg : Config) (env : Env) (repoDir : FPath) (s : RunState)
    (hcp : env.shellOk (.copyStaging cfg.dir repoDir) = true)
    (hd1 : repoDir.isPrefixOf cfg.dir = false)
    (hd2 : cfg.dir.isPrefixOf repoDir = false) :
    (syncModules cfg env repoDir s).1 = .ok ()
    ∧ (syncModules cfg env repoDir s).2.trace = s.trace ++ [.copyStaging cfg.dir repoDir]
    ∧ (∀ p, repoDir.isPrefixOf p = false →
        (syncModules cfg env repoDir s).2.fs.exists_ p = s.fs.exists_ p
        ∧ (syncModules cfg env repoDir s).2.fs.readFile p = s.fs.readFile p)
    ∧ (s.fs.exists_ (repoDir ++ ["go.mod"]) = true →
        ∀ (e : String) (rest : List String), e ≠ ".git" →
          (syncModules cfg env repoDir s).2.fs.exists_ (repoDir ++ e :: rest)
              = s.fs.exists_ (cfg.dir ++ e :: rest)
          ∧ (s.fs.exists_ (cfg.dir ++ e :: rest) = true →
              (syncModules cfg env repoDir s).2.fs.readFile (repoDir ++ e :: rest)
                = s.fs.readFile (cfg.dir ++ e :: rest)))
    ∧ (s.fs.exists_ (repoDir ++ ["go.mod"]) = true →
        ∀ (rest : List String), s.fs.exists_ (cfg.dir ++ ".git" :: rest) = false →
          (syncModules cfg env repoDir s).2.fs.exists_ (repoDir ++ ".git" :: rest)
              = s.fs.exists_ (repoDir ++ ".git" :: rest)
          ∧ (syncModules cfg env repoDir s).2.fs.readFile (repoDir ++ ".git" :: rest)
              = s.fs.readFile (repoDir ++ ".git" :: rest))
    ∧ (s.fs.exists_ (repoDir ++ ["go.mod"]) = false →
        ∀ (e : String) (rest : List String),
          (e ∈ s.fs.readdir repoDir ∧ s.fs.exists_ (repoDir ++ [e, "go.mod"]) = true →
            (syncModules cfg env repoDir s).2.fs.exists_ (repoDir ++ e :: rest)
                = s.fs.exists_ (cfg.dir ++ e :: rest)
            ∧ (s.fs.exists_ (cfg.dir ++ e :: rest) = true →
                (syncModules cfg env repoDir s).2.fs.readFile (repoDir ++ e :: rest)
                  = s.fs.readFile (cfg.dir ++ e :: rest)))
          ∧ (¬(e ∈ s.fs.readdir repoDir ∧ s.fs.exists_ (repoDir ++ [e, "go.mod"]) = true) →
              (syncModules cfg env repoDir s).2.fs.exists_ (repoDir ++ e :: rest)
                  = (s.fs.exists_ (cfg.dir ++ e :: rest) || s.fs.exists_ (repoDir ++ e :: rest))
              ∧ (s.fs.exists_ (cfg.dir ++ e :: rest) = true →
                  (syncModules cfg env repoDir s).2.fs.readFile (repoDir ++ e :: rest)
                    = s.fs.readFile (cfg.dir ++ e :: rest))
              ∧ (s.fs.exists_ (cfg.dir ++ e :: rest) = false →
                  (syncModules cfg env repoDir s).2.fs.exists_ (repoDir ++ e :: rest)
                      = s.fs.exists_ (repoDir ++ e :: rest)
                  ∧ (syncModules cfg env repoDir s).2.fs.readFile (repoDir ++ e :: rest)
                      = s.fs.readFile (repoDir ++ e :: rest)))) := by
  have hrun := @syncModules_run cfg env repoDir hcp s
  have hstagp : ∀ sfx : List String, repoDir.isPrefixOf (cfg.dir ++ sfx) = false := by
    intro sfx
    by_contra hq
    have hq2 : repoDir.isPrefixOf (cfg.dir ++ sfx) = true := by
      revert hq
      cases repoDir.isPrefixOf (cfg.dir ++ sfx) <;> simp
    rw [List.isPrefixOf_iff_prefix] at hq2
    rcases List.prefix_or_prefix_of_prefix hq2 (List.prefix_append cfg.dir sfx) with h | h
    · rw [← List.isPrefixOf_iff_prefix] at h
      rw [h] at hd1
      cases hd1
    · rw [← List.isPrefixOf_iff_prefix] at h
      rw [h] at hd2
      cases hd2
  have hstagFS1 : ∀ sfx : List String,
      ((if s.fs.exists_ (repoDir ++ ["go.mod"]) then
          removeDirectory s.fs repoDir false [".git"]
        else removeSubmodules repoDir (s.fs.readdir repoDir) s.fs)).exists_ (cfg.dir ++ sfx)
        = s.fs.exists_ (cfg.dir ++ sfx) := by
    intro sfx
    by_cases hif : s.fs.exists_ (repoDir ++ ["go.mod"]) = true
    · rw [if_pos hif, removeDirectory_exists,
        removesPath_outside false [".git"] (hstagp sfx)]
      rfl
    · rw [if_neg hif, removeSubmodules_exists]
      rw [any_false_of_all (by
        intro x _
        rw [removesPath_outside true []
          (isPrefixOf_append_extend_false [x] (hstagp sfx))]
        exact Bool.and_false _)]
      simp
  have hreadFS1 : ∀ p : FPath,
      ((if s.fs.exists_ (repoDir ++ ["go.mod"]) then
          removeDirectory s.fs repoDir false [".git"]
        else removeSubmodules repoDir (s.fs.readdir repoDir) s.fs)).readFile p
        = s.fs.readFile p := by
    intro p
    by_cases hif : s.fs.exists_ (repoDir ++ ["go.mod"]) = true
    · rw [if_pos hif, removeDirectory_readFile]
    · rw [if_neg hif, removeSubmodules_readFile]
  rw [hrun]
  refine ⟨rfl, rfl, ?_, ?_, ?_, ?_⟩
  · -- frame: paths outside the workspace are untouched
    intro p hp
    constructor
    · rw [copyInto_exists_outside _ _ hp]
      by_cases hif : s.fs.exists_ (repoDir ++ ["go.mod"]) = true
      · rw [if_pos hif, removeDirectory_exists, removesPath_outside false [".git"] hp]
        rfl
      · rw [if_neg hif, removeSubmodules_exists]
        rw [any_false_of_all (by
          intro x _
          rw [removesPath_outside true [] (isPrefixOf_append_extend_false [x] hp)]
          exact Bool.and_false _)]
        simp
    · rw [copyInto_readFile_outside _ _ hp]
      exact hreadFS1 p
  · -- top-level module: everything outside .git removed and replaced
    intro hif e rest hgit
    have hcont : ([".git"].contains e) = false := by
      simp [List.contains]
      exact hgit
    have hremoved : ((if s.fs.exists_ (repoDir ++ ["go.mod"]) then
        removeDirectory s.fs repoDir false [".git"]
      else removeSubmodules repoDir (s.fs.readdir repoDir) s.fs)).exists_
          (repoDir ++ e :: rest) = false := by
      rw [if_pos hif, removeDirectory_exists, removesPath_append_cons, hcont]
      rfl
    constructor
    · rw [copyInto_exists_append_cons, hstagFS1, hremoved]
      simp
    · intro hstg
      rw [copyInto_readFile_append_cons, hstagFS1, hstg]
      simp only [if_true, ite_true]
      exact hreadFS1 _
  · -- top-level module: the .git subtree is untouched
    intro hif rest hng
    have hkeep : ((if s.fs.exists_ (repoDir ++ ["go.mod"]) then
        removeDirectory s.fs repoDir false [".git"]
      else removeSubmodules repoDir (s.fs.readdir repoDir) s.fs)).exists_
          (repoDir ++ ".git" :: rest) = s.fs.exists_ (repoDir ++ ".git" :: rest) := by
      rw [if_pos hif, removeDirectory_exists, removesPath_append_cons]
      simp [List.contains]
    constructor
    · rw [copyInto_exists_append_cons, hstagFS1, hng, hkeep]
      simp
    · rw [copyInto_readFile_append_cons, hstagFS1, hng]
      simp only [Bool.false_eq_true, if_false, ite_false]
      exact hreadFS1 _
  · -- no top-level module: per-submodule behavior
    intro helse e rest
    have helse2 : s.fs.exists_ (repoDir ++ ["go.mod"]) = false := by
      revert helse
      cases s.fs.exists_ (repoDir ++ ["go.mod"]) <;> simp
    constructor
    · -- a recognized submodule is removed and replaced
      intro ⟨he, hgo⟩
      have hrem : ((if s.fs.exists_ (repoDir ++ ["go.mod"]) then
          removeDirectory s.fs repoDir false [".git"]
        else removeSubmodules repoDir (s.fs.readdir repoDir) s.fs)).exists_
            (repoDir ++ e :: rest) = false := by
        rw [if_neg (by simp [helse2]), removeSubmodules_exists]
        have hany : (s.fs.readdir repoDir).any (fun x =>
            s.fs.exists_ (repoDir ++ [x, "go.mod"])
              && removesPath (repoDir ++ [x]) true [] (repoDir ++ e :: rest)) = true := by
          refine List.any_eq_true.2 ⟨e, he, ?_⟩
          rw [hgo, removesPath_sub_true]
          rfl
        rw [hany]
        simp
      constructor
      · rw [copyInto_exists_append_cons, hstagFS1, hrem]
        simp
      · intro hstg
        rw [copyInto_readFile_append_cons, hstagFS1, hstg]
        simp only [if_true, ite_true]
        exact hreadFS1 _
    · -- everything else is only overlaid by the copy
      intro hnot
      have hkeep : ((if s.fs.exists_ (repoDir ++ ["go.mod"]) then
          removeDirectory s.fs repoDir false [".git"]
        else removeSubmodules repoDir (s.fs.readdir repoDir) s.fs)).exists_
            (repoDir ++ e :: rest) = s.fs.exists_ (repoDir ++ e :: rest) := by
        rw [if_neg (by simp [helse2]), removeSubmodules_exists]
        rw [any_false_of_all (by
          intro x hx
          by_cases hxe : x = e
          · subst hxe
            have hgo : s.fs.exists_ (repoDir ++ [x, "go.mod"]) = false := by
              by_contra hg
              have hg2 : s.fs.exists_ (repoDir ++ [x, "go.mod"]) = true := by
                revert hg
                cases s.fs.exists_ (repoDir ++ [x, "go.mod"]) <;> simp
              exact hnot ⟨hx, hg2⟩
            rw [hgo]
            rfl
          · have hxe2 : (x == e) = false := by
              rcases hbeq : x == e with _ | _
              · rfl
              · exact absurd (eq_of_beq hbeq) hxe
            rw [removesPath_sub_false repoDir rest hxe2]
            exact Bool.and_false _)]
        simp
      refine ⟨?_, ?_, ?_⟩
      · rw [copyInto_exists_append_cons, hstagFS1, hkeep]
      · intro hstg
        rw [copyInto_readFile_append_cons, hstagFS1, hstg]
        simp only [if_true, ite_true]
        exact hreadFS1 _
      · intro hstg
        constructor
        · rw [copyInto_exists_append_cons, hstagFS1, hstg, hkeep]
          simp
        · rw [copyInto_readFile_append_cons, hstagFS1, hstg]
          simp only [Bool.false_eq_true, if_false, ite_false]
          exact hreadFS1 _

/-- Counterexample to C1 as stated.  Scenario A: the staging directory
contains the module-declaration file at its root while the cloned
workspace does not; the claim then requires every tracked workspace file
to be removed (and `keep.txt` has no staging counterpart), yet after
synchronization `keep.txt` still exists — the branch is decided by the
workspace, not the staging directory.  Scenario B: neither side has a
root `go.mod` and `README` lies in no recognized submodule, so under the
claim it must remain unchanged, yet its content changes from `old` to
`new` because the copy overlays it. -/
theorem syncModules_claim_refuted :
    fsA.exists_ (["dist", "go"] ++ ["go.mod"]) = true
    ∧ fsA.exists_ (["tmp", "w"] ++ ["go.mod"]) = false
    ∧ fsA.exists_ ["tmp", "w", "keep.txt"] = true
    ∧ fsA.exists_ (["dist", "go"] ++ ["keep.txt"]) = false
    ∧ (syncModules cfgSample envAllOk ["tmp", "w"] (initState fsA)).1 = .ok ()
    ∧ (syncModules cfgSample envAllOk ["tmp", "w"] (initState fsA)).2.fs.exists_
        ["tmp", "w", "keep.txt"] = true
    ∧ fsB.exists_ (["dist", "go"] ++ ["go.mod"]) = false
    ∧ fsB.exists_ (["tmp", "w"] ++ ["go.mod"]) = false
    ∧ fsB.exists_ (["tmp", "w"] ++ ["README", "go.mod"]) = false
    ∧ fsB.readFile ["tmp", "w", "README"] = "old"
    ∧ (syncModules cfgSample envAllOk ["tmp", "w"] (initState fsB)).2.fs.readFile
        ["tmp", "w", "README"] = "new"
    ∧ "new" ≠ "old" := by
  refine ⟨by decide, by decide, by decide, by decide, by decide, by decide,
    by decide, by decide, by decide, by decide, by decide, by decide⟩

/-- Witness for the amended C1 on the concrete synchronization layout
`fsA` (staging `dist/go`, workspace `tmp/w`, the copy succeeding). -/
theorem syncModules_effect_witness :
    (syncModules cfgSample envAllOk ["tmp", "w"] (initState fsA)).1 = .ok ()
    ∧ (syncModules cfgSample envAllOk ["tmp", "w"] (initState fsA)).2.trace = (initState fsA).trace ++ [.copyStaging cfgSample.dir ["tmp", "w"]]
    ∧ (∀ p, (["tmp", "w"] : FPath).isPrefixOf p = false →
        (syncModules cfgSample envAllOk ["tmp", "w"] (initState fsA)).2.fs.exists_ p = (initState fsA).fs.exists_ p
        ∧ (syncModules cfgSample envAllOk ["tmp", "w"] (initState fsA)).2.fs.readFile p = (initState fsA).fs.readFile p)
    ∧ ((initState fsA).fs.exists_ (["tmp", "w"] ++ ["go.mod"]) = true →
        ∀ (e : String) (rest : List String), e ≠ ".git" →
          (syncModules cfgSample envAllOk ["tmp", "w"] (initState fsA)).2.fs.exists_ (["tmp", "w"] ++ e :: rest)
              = (initState fsA).fs.exists_ (cfgSample.dir ++ e :: rest)
          ∧ ((initState fsA).fs.exists_ (cfgSample.dir ++ e :: rest) = true →
              (syncModules cfgSample envAllOk ["tmp", "w"] (initState fsA)).2.fs.readFile (["tmp", "w"] ++ e :: rest)
                = (initState fsA).fs.readFile (cfgSample.dir ++ e :: rest)))
    ∧ ((initState fsA).fs.exists_ (["tmp", "w"] ++ ["go.mod"]) = true →
        ∀ (rest : List String), (initState fsA).fs.exists_ (cfgSample.dir ++ ".git" :: rest) = false →
          (syncModules cfgSample envAllOk ["tmp", "w"] (initState fsA)).2.fs.exists_ (["tmp", "w"] ++ ".git" :: rest)
              = (initState fsA).fs.exists_ (["tmp", "w"] ++ ".git" :: rest)
          ∧ (syncModules cfgSample envAllOk ["tmp", "w"] (initState fsA)).2.fs.readFile (["tmp", "w"] ++ ".git" :: rest)
              = (initState fsA).fs.readFile (["tmp", "w"] ++ ".git" :: rest))
    ∧ ((initState fsA).fs.exists_ (["tmp", "w"] ++ ["go.mod"]) = false →
        ∀ (e : String) (rest : List String),
          (e ∈ (initState fsA).fs.readdir ["tmp", "w"] ∧ (initState fsA).fs.exists_ (["tmp", "w"] ++ [e, "go.mod"]) = true →
            (syncModules cfgSample envAllOk ["tmp", "w"] (initState fsA)).2.fs.exists_ (["tmp", "w"] ++ e :: rest)
                = (initState fsA).fs.exists_ (cfgSample.dir ++ e :: rest)
            ∧ ((initState fsA).fs.exists_ (cfgSample.dir ++ e :: rest) = true →
                (syncModules cfgSample envAllOk ["tmp", "w"] (initState fsA)).2.fs.readFile (["tmp", "w"] ++ e :: rest)
                  = (initState fsA).fs.readFile (cfgSample.dir ++ e :: rest)))
          ∧ (¬(e ∈ (initState fsA).fs.readdir ["tmp", "w"] ∧ (initState fsA).fs.exists_ (["tmp", "w"] ++ [e, "go.mod"]) = true) →
              (syncModules cfgSample envAllOk ["tmp", "w"] (initState fsA)).2.fs.exists_ (["tmp", "w"] ++ e :: rest)
                  = ((initState fsA).fs.exists_ (cfgSample.dir ++ e :: rest) || (initState fsA).fs.exists_ (["tmp", "w"] ++ e :: rest))
              ∧ ((initState fsA).fs.exists_ (cfgSample.dir ++ e :: rest) = true →
                  (syncModules cfgSample envAllOk ["tmp", "w"] (initState fsA)).2.fs.readFile (["tmp", "w"] ++ e :: rest)
                    = (initState fsA).fs.readFile (cfgSample.dir ++ e :: rest))
              ∧ ((initState fsA).fs.exists_ (cfgSample.dir ++ e :: rest) = false →
                  (syncModules cfgSample envAllOk ["tmp", "w"] (initState fsA)).2.fs.exists_ (["tmp", "w"] ++ e :: rest)
                      = (initState fsA).fs.exists_ (["tmp", "w"] ++ e :: rest)
                  ∧ (syncModules cfgSample envAllOk ["tmp", "w"] (initState fsA)).2.fs.readFile (["tmp", "w"] ++ e :: rest)
                      = (initState fsA).fs.readFile (["tmp", "w"] ++ e :: rest)))) :=
  syncModules_effect cfgSample envAllOk ["tmp", "w"] (initState fsA)
    rfl (by decide) (by decide)
